import Mathlib

/-!
# Kubernetes pod discovery of the prometheus input

A shallow embedding of `plugins/inputs/prometheus/kubernetes.go`
(`scrapeURL`, `registerPod`, `unregisterPod` and the three informer
callbacks installed by `start`), together with the parts of Go's `strings`
and `net/url` packages these functions call.

Conventions.

* A Go `string` is a sequence of bytes.  It is modelled by a Lean `String`
  whose characters are read as bytes; all concrete inputs below are ASCII.
* A Go `map[string]string` is `Option GoMap`: `none` is the nil map, which
  can be read (every key is absent) but not written.
* `log.Printf` only writes to the log and is left out.
* The `String()` methods of `net/url` are called `render`.
* A callback changes the plugin state and, through the annotation map, the
  pod object it is given; `registerPod` returns both.
* A Go map value points to a table shared by all who hold the value.  The
  annotation map of a pod and the `Tags` of a registry entry carry the
  address of their table next to its contents; a write to the map of a pod
  shows in every registry entry with the same address (`shareTags`).
* A call either returns, or panics, or waits forever on the mutex
  (`Outcome`).  The registry lock is a flag: `true` when held.
-/

set_option autoImplicit false

namespace Telegraf

/-! ## Go strings -/

/-- Go `strings.HasPrefix`. -/
def hasPrefix (s pre : String) : Bool := pre.data.isPrefixOf s.data

/-- Go `strings.HasSuffix`. -/
def hasSuffix (s suf : String) : Bool := suf.data.reverse.isPrefixOf s.data.reverse

/-! ## Go maps -/

/-- A non-nil Go `map[string]string`: finitely many entries, no key twice. -/
structure GoMap where
  entries : List (String × String)
  nodup : (entries.map Prod.fst).Nodup
deriving DecidableEq

/-- First value stored under `k` in a list of entries. -/
def lookupEntry (k : String) : List (String × String) → Option String
  | [] => none
  | e :: es => if e.1 = k then some e.2 else lookupEntry k es

namespace GoMap

/-- The comma-ok read `v, ok := m[k]`. -/
def get (m : GoMap) (k : String) : Option String := lookupEntry k m.entries

/-- The assignment `m[k] = v`. -/
def set (m : GoMap) (k v : String) : GoMap :=
  ⟨(k, v) :: m.entries.filter (fun e => decide (e.1 ≠ k)), by
    rw [List.map_cons, List.nodup_cons]
    refine ⟨?_, (m.nodup.sublist (List.Sublist.map _ (List.filter_sublist _)))⟩
    intro h
    rcases List.mem_map.1 h with ⟨e, he, hk⟩
    have := (List.mem_filter.1 he).2
    simp at this
    exact this hk⟩

end GoMap

/-- The read `m[k]` of a possibly nil map: the zero value `""` when the key
is absent. -/
def index (m : Option GoMap) (k : String) : String :=
  match m with
  | none => ""
  | some m => (m.get k).getD ""

/-- The comma-ok read of a possibly nil map. -/
def index? (m : Option GoMap) (k : String) : Option String :=
  match m with
  | none => none
  | some m => m.get k

/-- The entries a `for k, v := range m` loop visits (none for a nil map). -/
def rangeEntries (m : Option GoMap) : List (String × String) :=
  match m with
  | none => []
  | some m => m.entries

/-! ## Pods -/

/-- The fields of `metav1.ObjectMeta` the plugin reads.  A Go map value
points to a table that every holder of the value shares: `Annotations` is what
the table of the annotation map holds now, and `AnnotationsAddr` says which
table it is (two non-nil maps with the same address are the same map). -/
structure ObjectMeta where
  Name : String
  Namespace : String
  Labels : Option GoMap
  Annotations : Option GoMap
  AnnotationsAddr : Nat
deriving DecidableEq

/-- The field of `v1.PodStatus` the plugin reads. -/
structure PodStatus where
  PodIP : String
deriving DecidableEq

/-- The pod object `*v1.Pod` an informer callback receives. -/
structure Pod where
  ObjectMeta : ObjectMeta
  Status : PodStatus
deriving DecidableEq

/-- Go `scrapeURL`: the scrape address of a pod, `none` for the nil pointer. -/
def scrapeURL (pod : Pod) : Option String :=
  let scrape := index pod.ObjectMeta.Annotations "prometheus.io/scrape"
  if pod.Status.PodIP = "" then
    none
  else if scrape = "true" then
    let path := index pod.ObjectMeta.Annotations "prometheus.io/path"
    let port := index pod.ObjectMeta.Annotations "prometheus.io/port"
    let port := if port = "" then "9102" else port
    let path := if path = "" then "/metrics" else path
    let path := if !hasPrefix path "/" then "/" ++ path else path
    let ip := pod.Status.PodIP
    some ("http://" ++ ip ++ ":" ++ port ++ path)
  else
    none

/-! ## Go `strings` on byte sequences -/

/-- Go `strings.IndexByte`: the position of the first `c`. -/
def indexByte (c : Char) : List Char → Option Nat
  | [] => none
  | x :: xs => if x = c then some 0 else (indexByte c xs).map (· + 1)

/-- Go `strings.LastIndexByte`: the position of the last `c`. -/
def lastIndexByte (c : Char) : List Char → Option Nat
  | [] => none
  | x :: xs =>
    match lastIndexByte c xs with
    | some i => some (i + 1)
    | none => if x = c then some 0 else none

/-- Go `strings.Index`: the position of the first occurrence of `sub`. -/
def indexSub (sub : List Char) : List Char → Option Nat
  | [] => if sub = [] then some 0 else none
  | x :: xs => if sub.isPrefixOf (x :: xs) then some 0 else (indexSub sub xs).map (· + 1)

/-- Go `strings.Cut` at a one-byte separator: the text before and after the
first `sep`, or `(s, "")` when there is none. -/
def cut (s : String) (sep : Char) : String × String :=
  match indexByte sep s.data with
  | none => (s, "")
  | some i => (⟨s.data.take i⟩, ⟨s.data.drop (i + 1)⟩)

/-- Go `strings.Contains` for a one-byte substring. -/
def containsByte (s : String) (c : Char) : Bool := (indexByte c s.data).isSome

/-- Go `strings.Count` for a one-byte substring. -/
def countByte (s : String) (c : Char) : Nat := s.data.count c

/-- Go `strings.ToLower` on ASCII text (a scheme holds ASCII only). -/
def toLower (s : String) : String :=
  ⟨s.data.map (fun c => if 'A' ≤ c ∧ c ≤ 'Z' then Char.ofNat (c.toNat + 32) else c)⟩

/-! ## Go `net/url` (url.go of Go 1.19 to 1.24) -/

/-- The `encoding` modes of `net/url`. -/
inductive encoding where
  | encodePath
  | encodePathSegment
  | encodeHost
  | encodeZone
  | encodeUserPassword
  | encodeQueryComponent
  | encodeFragment
deriving DecidableEq

open encoding

/-- Go `ishex`. -/
def ishex (c : Char) : Bool :=
  ('0' ≤ c ∧ c ≤ '9') ∨ ('a' ≤ c ∧ c ≤ 'f') ∨ ('A' ≤ c ∧ c ≤ 'F')

/-- Go `unhex`. -/
def unhex (c : Char) : Nat :=
  if '0' ≤ c ∧ c ≤ '9' then c.toNat - '0'.toNat
  else if 'a' ≤ c ∧ c ≤ 'f' then c.toNat - 'a'.toNat + 10
  else if 'A' ≤ c ∧ c ≤ 'F' then c.toNat - 'A'.toNat + 10
  else 0

/-- The digit `upperhex[n]` of `"0123456789ABCDEF"`. -/
def upperhex (n : Nat) : Char := "0123456789ABCDEF".data.getD n '0'

/-- Go `shouldEscape`: whether byte `c` is written as `%XX` in the given part
of a URL. -/
def shouldEscape (c : Char) (mode : encoding) : Bool :=
  if ('a' ≤ c ∧ c ≤ 'z') ∨ ('A' ≤ c ∧ c ≤ 'Z') ∨ ('0' ≤ c ∧ c ≤ '9') then false
  else if (mode = encodeHost ∨ mode = encodeZone) ∧
      c ∈ ['!', '$', '&', '\'', '(', ')', '*', '+', ',', ';', '=', ':', '[', ']', '<', '>', '"'] then
    false
  else if c ∈ ['-', '_', '.', '~'] then false
  else if c ∈ ['$', '&', '+', ',', '/', ':', ';', '=', '?', '@'] ∧
      mode ∈ [encodePath, encodePathSegment, encodeUserPassword, encodeQueryComponent,
        encodeFragment] then
    match mode with
    | encodePath => c = '?'
    | encodePathSegment => c = '/' ∨ c = ';' ∨ c = ',' ∨ c = '?'
    | encodeUserPassword => c = '@' ∨ c = '/' ∨ c = '?' ∨ c = ':'
    | encodeQueryComponent => true
    | encodeFragment => false
    | _ => true
  else if mode = encodeFragment ∧ c ∈ ['!', '(', ')', '*'] then false
  else true

/-- The first loop of Go `unescape`: every `%` is followed by two hex digits,
and in a host no byte is one that must be escaped. -/
def unescapeOK (mode : encoding) : List Char → Bool
  | [] => true
  | c :: rest =>
    if c = '%' then
      match rest with
      | a :: b :: rest2 =>
        if !ishex a || !ishex b then false
        else if mode = encodeHost ∧ unhex a < 8 ∧ [c, a, b] ≠ "%25".data then false
        else if mode = encodeZone ∧ [c, a, b] ≠ "%25".data ∧
            Char.ofNat (unhex a * 16 + unhex b) ≠ ' ' ∧
            shouldEscape (Char.ofNat (unhex a * 16 + unhex b)) encodeHost then false
        else unescapeOK mode rest2
      | _ => false
    else if (mode = encodeHost ∨ mode = encodeZone) ∧ c.toNat < 128 ∧
        shouldEscape c encodeHost ∧ c ≠ '+' then false
    else unescapeOK mode rest

/-- The second loop of Go `unescape`: replace each `%XX` by its byte (and `+`
by a space in a query component). -/
def unescapeBytes (mode : encoding) : List Char → List Char
  | [] => []
  | c :: rest =>
    if c = '%' then
      match rest with
      | a :: b :: rest2 => Char.ofNat (unhex a * 16 + unhex b) :: unescapeBytes mode rest2
      | _ => []
    else if c = '+' then
      (if mode = encodeQueryComponent then ' ' else '+') :: unescapeBytes mode rest
    else c :: unescapeBytes mode rest

/-- Go `unescape`; `none` is the error result. -/
def unescape (s : String) (mode : encoding) : Option String :=
  if unescapeOK mode s.data then some ⟨unescapeBytes mode s.data⟩ else none

/-- Go `escape`. -/
def escape (s : String) (mode : encoding) : String :=
  ⟨s.data.flatMap (fun c =>
    if c = ' ' ∧ mode = encodeQueryComponent then ['+']
    else if shouldEscape c mode then ['%', upperhex (c.toNat / 16 % 16), upperhex (c.toNat % 16)]
    else [c])⟩

/-- Go `validEncoded`. -/
def validEncoded (s : String) (mode : encoding) : Bool :=
  s.data.all (fun c =>
    if c ∈ ['!', '$', '&', '\'', '(', ')', '*', '+', ',', ';', '=', ':', '@'] then true
    else if c ∈ ['[', ']'] then true
    else if c = '%' then true
    else !shouldEscape c mode)

/-- Go `stringContainsCTLByte`. -/
def stringContainsCTLByte (s : String) : Bool :=
  s.data.any (fun b => b < ' ' ∨ b.toNat = 127)

/-- Go `validOptionalPort`: empty, or a colon followed by digits only. -/
def validOptionalPort (port : String) : Bool :=
  match port.data with
  | [] => true
  | c :: rest => if c ≠ ':' then false else rest.all (fun b => !(b < '0' ∨ b > '9'))

/-- Go `validUserinfo`. -/
def validUserinfo (s : String) : Bool :=
  s.data.all (fun r =>
    if 'A' ≤ r ∧ r ≤ 'Z' then true
    else if 'a' ≤ r ∧ r ≤ 'z' then true
    else if '0' ≤ r ∧ r ≤ '9' then true
    else r ∈ ['-', '.', '_', ':', '~', '!', '$', '&', '\'', '(', ')', '*', '+', ',', ';', '=',
      '%', '@'])

/-- Go `url.Userinfo`. -/
structure Userinfo where
  username : String
  password : String
  passwordSet : Bool
deriving DecidableEq

/-- Go `url.URL`. -/
structure URL where
  Scheme : String
  Opaque : String
  User : Option Userinfo
  Host : String
  Path : String
  RawPath : String
  OmitHost : Bool
  ForceQuery : Bool
  RawQuery : String
  Fragment : String
  RawFragment : String
deriving DecidableEq

/-- The zero value `new(URL)`. -/
def URL.zero : URL := ⟨"", "", none, "", "", "", false, false, "", "", ""⟩

/-- The loop of Go `getScheme`, at byte `i` with `rest = rawURL[i:]`. -/
def getSchemeLoop (rawURL : String) : Nat → List Char → Option (String × String)
  | _, [] => some ("", rawURL)
  | i, c :: rest =>
    if ('a' ≤ c ∧ c ≤ 'z') ∨ ('A' ≤ c ∧ c ≤ 'Z') then getSchemeLoop rawURL (i + 1) rest
    else if ('0' ≤ c ∧ c ≤ '9') ∨ c = '+' ∨ c = '-' ∨ c = '.' then
      if i = 0 then some ("", rawURL) else getSchemeLoop rawURL (i + 1) rest
    else if c = ':' then
      if i = 0 then none else some (⟨rawURL.data.take i⟩, ⟨rest⟩)
    else some ("", rawURL)

/-- Go `getScheme`: the scheme and what follows its colon; `none` is the error
"missing protocol scheme". -/
def getScheme (rawURL : String) : Option (String × String) :=
  getSchemeLoop rawURL 0 rawURL.data

/-- Go `parseHost`. -/
def parseHost (host : String) : Option String :=
  if hasPrefix host "[" then
    match lastIndexByte ']' host.data with
    | none => none
    | some i =>
      if !validOptionalPort ⟨host.data.drop (i + 1)⟩ then none
      else
        match indexSub "%25".data (host.data.take i) with
        | some zone =>
          match unescape ⟨host.data.take zone⟩ encodeHost,
              unescape ⟨(host.data.take i).drop zone⟩ encodeZone,
              unescape ⟨host.data.drop i⟩ encodeHost with
          | some host1, some host2, some host3 => some (host1 ++ host2 ++ host3)
          | _, _, _ => none
        | none => unescape host encodeHost
  else
    match lastIndexByte ':' host.data with
    | some i =>
      if !validOptionalPort ⟨host.data.drop i⟩ then none else unescape host encodeHost
    | none => unescape host encodeHost

/-- Go `parseAuthority`: the user information and the host of `user@host`. -/
def parseAuthority (authority : String) : Option (Option Userinfo × String) :=
  match lastIndexByte '@' authority.data with
  | none => (parseHost authority).map (fun host => (none, host))
  | some i =>
    match parseHost ⟨authority.data.drop (i + 1)⟩ with
    | none => none
    | some host =>
      let userinfo : String := ⟨authority.data.take i⟩
      if !validUserinfo userinfo then none
      else if !containsByte userinfo ':' then
        (unescape userinfo encodeUserPassword).map (fun u => (some ⟨u, "", false⟩, host))
      else
        match unescape (cut userinfo ':').1 encodeUserPassword,
            unescape (cut userinfo ':').2 encodeUserPassword with
        | some username, some password => some (some ⟨username, password, true⟩, host)
        | _, _ => none

/-- Go `(*URL).setPath`. -/
def URL.setPath (u : URL) (p : String) : Option URL :=
  match unescape p encodePath with
  | none => none
  | some path =>
    some { u with Path := path, RawPath := if p = escape path encodePath then "" else p }

/-- Go `(*URL).setFragment`. -/
def URL.setFragment (u : URL) (f : String) : Option URL :=
  match unescape f encodeFragment with
  | none => none
  | some frag =>
    some { u with Fragment := frag,
                  RawFragment := if f = escape frag encodeFragment then "" else f }

/-- Go `parse`: a URL without its fragment. -/
def parse (rawURL : String) (viaRequest : Bool) : Option URL :=
  if stringContainsCTLByte rawURL then none
  else if rawURL = "" ∧ viaRequest then none
  else if rawURL = "*" then some { URL.zero with Path := "*" }
  else
    match getScheme rawURL with
    | none => none
    | some (scheme, rest) =>
      let url := { URL.zero with Scheme := toLower scheme }
      let (url, rest) :=
        if hasSuffix rest "?" ∧ countByte rest '?' = 1 then
          ({ url with ForceQuery := true }, (⟨rest.data.take (rest.data.length - 1)⟩ : String))
        else ({ url with RawQuery := (cut rest '?').2 }, (cut rest '?').1)
      if !hasPrefix rest "/" ∧ url.Scheme ≠ "" then some { url with Opaque := rest }
      else if !hasPrefix rest "/" ∧ viaRequest then none
      else if !hasPrefix rest "/" ∧ containsByte (cut rest '/').1 ':' then none
      else if (url.Scheme ≠ "" ∨ (!viaRequest ∧ !hasPrefix rest "///")) ∧ hasPrefix rest "//" then
        let authority : String := ⟨rest.data.drop 2⟩
        let (authority, rest) : String × String :=
          match indexByte '/' authority.data with
          | some i => (⟨authority.data.take i⟩, ⟨authority.data.drop i⟩)
          | none => (authority, "")
        match parseAuthority authority with
        | none => none
        | some (user, host) => { url with User := user, Host := host }.setPath rest
      else if url.Scheme ≠ "" ∧ hasPrefix rest "/" then
        { url with OmitHost := true }.setPath rest
      else url.setPath rest

/-- Go `url.Parse`; `none` is the error result. -/
def Parse (rawURL : String) : Option URL :=
  match parse (cut rawURL '#').1 false with
  | none => none
  | some url => if (cut rawURL '#').2 = "" then some url else url.setFragment (cut rawURL '#').2

/-- Go `splitHostPort`. -/
def splitHostPort (hostPort : String) : String × String :=
  let (host, port) : String × String :=
    match lastIndexByte ':' hostPort.data with
    | some colon =>
      if validOptionalPort ⟨hostPort.data.drop colon⟩ then
        (⟨hostPort.data.take colon⟩, ⟨hostPort.data.drop (colon + 1)⟩)
      else (hostPort, "")
    | none => (hostPort, "")
  if hasPrefix host "[" ∧ hasSuffix host "]" then
    (⟨(host.data.drop 1).take (host.data.length - 2)⟩, port)
  else (host, port)

/-- Go `(*URL).Hostname`. -/
def URL.Hostname (u : URL) : String := (splitHostPort u.Host).1

/-- Go `(*URL).Port`. -/
def URL.Port (u : URL) : String := (splitHostPort u.Host).2

/-- Go `(*Userinfo).String`. -/
def Userinfo.render (u : Userinfo) : String :=
  if u.passwordSet then
    escape u.username encodeUserPassword ++ ":" ++ escape u.password encodeUserPassword
  else escape u.username encodeUserPassword

/-- Go `(*URL).EscapedPath`. -/
def URL.EscapedPath (u : URL) : String :=
  if u.RawPath ≠ "" ∧ validEncoded u.RawPath encodePath ∧
      unescape u.RawPath encodePath = some u.Path then u.RawPath
  else if u.Path = "*" then "*"
  else escape u.Path encodePath

/-- Go `(*URL).EscapedFragment`. -/
def URL.EscapedFragment (u : URL) : String :=
  if u.RawFragment ≠ "" ∧ validEncoded u.RawFragment encodeFragment ∧
      unescape u.RawFragment encodeFragment = some u.Fragment then u.RawFragment
  else escape u.Fragment encodeFragment

/-- Go `(*URL).String`: the URL written out again. -/
def URL.render (u : URL) : String :=
  let buf := if u.Scheme ≠ "" then u.Scheme ++ ":" else ""
  let buf :=
    if u.Opaque ≠ "" then buf ++ u.Opaque
    else
      let buf :=
        if u.Scheme ≠ "" ∨ u.Host ≠ "" ∨ u.User ≠ none then
          if u.OmitHost ∧ u.Host = "" ∧ u.User = none then buf
          else
            let buf := if u.Host ≠ "" ∨ u.Path ≠ "" ∨ u.User ≠ none then buf ++ "//" else buf
            let buf :=
              match u.User with
              | some ui => buf ++ ui.render ++ "@"
              | none => buf
            if u.Host ≠ "" then buf ++ escape u.Host encodeHost else buf
        else buf
      let path := u.EscapedPath
      let buf :=
        if path ≠ "" ∧ path.data.head? ≠ some '/' ∧ u.Host ≠ "" then buf ++ "/" else buf
      let buf :=
        if buf = "" ∧ containsByte (cut path '/').1 ':' then buf ++ "./" else buf
      buf ++ path
  let buf := if u.ForceQuery ∨ u.RawQuery ≠ "" then buf ++ "?" ++ u.RawQuery else buf
  if u.Fragment ≠ "" then buf ++ "#" ++ u.EscapedFragment else buf

/-! ## The plugin state -/

/-- The `URLAndAddress` records of the registry, with the fields the struct
literal in `registerPod` sets.  `Tags` is what the table of the tag map holds
now and `TagsAddr` says which table it is. -/
structure URLAndAddress where
  OriginalURL : URL
  URL : URL
  Address : String
  Tags : Option GoMap
  TagsAddr : Nat
deriving DecidableEq

/-- The fields of the `Prometheus` plugin the pod discovery uses: the mutex
`lock` (`true` when held) and the registry `kubernetesPods`. -/
structure Prometheus where
  lock : Bool
  kubernetesPods : List URLAndAddress
deriving DecidableEq

/-- How a call ends: it returns a result, it panics, or it waits forever for a
mutex nobody releases. -/
inductive Outcome (α : Type) where
  | returned (a : α)
  | panicked
  | blocked
deriving DecidableEq

/-- Modelled from the spec: `(*Prometheus).AddressToURL` is declared in
prometheus.go, which is not among the sources.  The spec describes a
descriptor's url as the absolute HTTP URL built from the pod IP, a port and a
path, and its address as the host component of that URL; this is the
function of the plugin that rebuilds `u` with `address` as its host, followed
by the port of `u` when it has one. -/
def AddressToURL (u : URL) (address : String) : URL :=
  let host := if u.Port ≠ "" then address ++ ":" ++ u.Port else address
  { Scheme := u.Scheme, Opaque := u.Opaque, User := u.User, Path := u.Path,
    RawPath := u.RawPath, ForceQuery := u.ForceQuery, RawQuery := u.RawQuery,
    Fragment := u.Fragment, Host := host, OmitHost := false, RawFragment := "" }

/-- The tag map `registerPod` builds in place, starting from the map `tags`:
`pod_name`, `namespace`, then every label. -/
def podTags (pod : Pod) (tags : GoMap) : GoMap :=
  let tags := tags.set "pod_name" pod.ObjectMeta.Name
  let tags := tags.set "namespace" pod.ObjectMeta.Namespace
  (rangeEntries pod.ObjectMeta.Labels).foldl (fun tags kv => tags.set kv.1 kv.2) tags

/-- The registry entries after the writes to the map at address `addr`, which
now holds `tags`: an entry whose `Tags` is that map reads the new contents,
every other entry is as it was. -/
def shareTags (addr : Nat) (tags : GoMap) (l : List URLAndAddress) : List URLAndAddress :=
  l.map (fun v => if v.TagsAddr = addr ∧ v.Tags ≠ none then { v with Tags := some tags } else v)

/-- Go `registerPod`.  The result holds the pod object after the call next to
the plugin state: `tags` is the pod's own annotation map (`GetAnnotations`
returns the map, not a copy), so the writes to `tags` are writes to the pod
and to every registry entry whose `Tags` is that map; the new entry holds the
same map.  The writes come before `url.Parse`.  On the parse error the
function returns with the mutex still held. -/
def registerPod (pod : Pod) (p : Prometheus) : Outcome (Pod × Prometheus) :=
  match scrapeURL pod with
  | none => .returned (pod, p)
  | some targetURL =>
    if p.lock then .blocked
    else
      match pod.ObjectMeta.Annotations with
      | none => .panicked
      | some annotations =>
        let tags := podTags pod annotations
        let addr := pod.ObjectMeta.AnnotationsAddr
        let pod := { pod with ObjectMeta := { pod.ObjectMeta with Annotations := some tags } }
        let shared := shareTags addr tags p.kubernetesPods
        match Parse targetURL with
        | none => .returned (pod, { lock := true, kubernetesPods := shared })
        | some URL =>
          let podURL := AddressToURL URL URL.Hostname
          .returned (pod,
            { lock := false,
              kubernetesPods := shared ++
                [{ URL := podURL, Address := URL.Hostname, OriginalURL := URL,
                   Tags := some tags, TagsAddr := addr }] })

/-- Go `unregisterPod`: the registry is rebuilt without the entries whose URL
is written like the scrape address of the pod. -/
def unregisterPod (pod : Pod) (p : Prometheus) : Outcome Prometheus :=
  match scrapeURL pod with
  | none => .returned p
  | some url =>
    if p.lock then .blocked
    else
      let result := p.kubernetesPods.foldl
        (fun result v => if v.URL.render ≠ url then result ++ [v] else result) []
      .returned { lock := false, kubernetesPods := result }

/-- The `AddFunc` callback of `start`. -/
def AddFunc (pod : Pod) (p : Prometheus) : Outcome (Pod × Prometheus) :=
  registerPod pod p

/-- The `DeleteFunc` callback of `start`. -/
def DeleteFunc (pod : Pod) (p : Prometheus) : Outcome Prometheus :=
  unregisterPod pod p

/-- The `UpdateFunc` callback of `start`: `unregisterPod` of the old object,
then `registerPod` of the new one. -/
def UpdateFunc (oldPod newPod : Pod) (p : Prometheus) : Outcome (Pod × Prometheus) :=
  match unregisterPod oldPod p with
  | .returned p1 => registerPod newPod p1
  | .panicked => .panicked
  | .blocked => .blocked

/-- A pod event of the informer, with the pod objects as they are when the
callback runs. -/
inductive Event where
  | Add (pod : Pod)
  | Delete (pod : Pod)
  | Update (oldPod newPod : Pod)

/-- The plugin state after the callback of one event. -/
def handle (e : Event) (p : Prometheus) : Outcome Prometheus :=
  match e with
  | .Add pod =>
    match AddFunc pod p with
    | .returned r => .returned r.2
    | .panicked => .panicked
    | .blocked => .blocked
  | .Delete pod => DeleteFunc pod p
  | .Update oldPod newPod =>
    match UpdateFunc oldPod newPod p with
    | .returned r => .returned r.2
    | .panicked => .panicked
    | .blocked => .blocked

/-- The callbacks of a sequence of events, one after the other. -/
def run : List Event → Prometheus → Outcome Prometheus
  | [], p => .returned p
  | e :: es, p =>
    match handle e p with
    | .returned p1 => run es p1
    | .panicked => .panicked
    | .blocked => .blocked

/-- The plugin before the first event: mutex free, registry empty. -/
def Prometheus.init : Prometheus := { lock := false, kubernetesPods := [] }

/-- The registry written out: the `URL.String()` of every entry, in order. -/
def urls (p : Prometheus) : List String := p.kubernetesPods.map (fun v => v.URL.render)

/-- A pod with the given IP, annotations and labels, named `p1` in namespace
`ns1`, whose annotation map is at address `addr`. -/
def mkPod (addr : Nat) (ip : String) (annotations labels : List (String × String))
    (ha : (annotations.map Prod.fst).Nodup) (hl : (labels.map Prod.fst).Nodup) : Pod :=
  { ObjectMeta := { Name := "p1", Namespace := "ns1", Labels := some ⟨labels, hl⟩,
                    Annotations := some ⟨annotations, ha⟩, AnnotationsAddr := addr },
    Status := { PodIP := ip } }

/-! ## Concrete pods -/

/-- Pod `10.0.0.5` with `prometheus.io/scrape = "true"` and nothing else. -/
def podPlain : Pod :=
  mkPod 1 "10.0.0.5" [("prometheus.io/scrape", "true")] [] (by decide) (by decide)

/-- Pod `10.0.0.5` with the path annotation `custom`. -/
def podCustom : Pod :=
  mkPod 2 "10.0.0.5" [("prometheus.io/scrape", "true"), ("prometheus.io/path", "custom")] []
    (by decide) (by decide)

/-- Pod `10.0.0.5` with annotation `env=staging` and label `env=prod`. -/
def podEnv : Pod :=
  mkPod 3 "10.0.0.5" [("prometheus.io/scrape", "true"), ("env", "staging")] [("env", "prod")]
    (by decide) (by decide)

/-- The value a call returned, if it returned. -/
def Outcome.result? {α : Type} : Outcome α → Option α
  | .returned a => some a
  | .panicked => none
  | .blocked => none

/-- One call after another: the second runs on what the first returned. -/
def Outcome.bind {α β : Type} (o : Outcome α) (f : α → Outcome β) : Outcome β :=
  match o with
  | .returned a => f a
  | .panicked => .panicked
  | .blocked => .blocked

/-- The tag read `e.Tags[k]` of every entry of the registry, in order. -/
def tagsAt (p : Prometheus) (k : String) : List (Option String) :=
  p.kubernetesPods.map (fun e => index? e.Tags k)

/-- Pod `10.0.0.5` with the label `prometheus.io/port=8080`. -/
def podLabelPort : Pod :=
  mkPod 4 "10.0.0.5" [("prometheus.io/scrape", "true")] [("prometheus.io/port", "8080")]
    (by decide) (by decide)

/-- Pod `10.0.0.5` with the path annotation `a b`. -/
def podSpace : Pod :=
  mkPod 5 "10.0.0.5" [("prometheus.io/scrape", "true"), ("prometheus.io/path", "a b")] []
    (by decide) (by decide)

/-- Pod `10.0.0.1`, eligible. -/
def podOld : Pod :=
  mkPod 6 "10.0.0.1" [("prometheus.io/scrape", "true")] [] (by decide) (by decide)

/-- Pod `10.0.0.2`, eligible. -/
def podNew : Pod :=
  mkPod 7 "10.0.0.2" [("prometheus.io/scrape", "true")] [] (by decide) (by decide)

/-- Pod `10.0.0.2`, eligible, with the port annotation `abc`. -/
def podNewBadPort : Pod :=
  mkPod 8 "10.0.0.2" [("prometheus.io/scrape", "true"), ("prometheus.io/port", "abc")] []
    (by decide) (by decide)

/-- The URL string `registerPod` stores for a pod, when it stores one: the
`String()` of `AddressToURL` of the parsed scrape address. -/
def storedURL (pod : Pod) : Option String :=
  match scrapeURL pod with
  | none => none
  | some targetURL =>
    match Parse targetURL with
    | none => none
    | some URL => some (AddressToURL URL URL.Hostname).render

/-- No entry of the registry is written like the URL `registerPod` would
store for the pod. -/
def fresh (pod : Pod) (p : Prometheus) : Bool :=
  match storedURL pod with
  | none => true
  | some s => decide (s ∉ urls p)

/-- Every `registerPod` of the event sequence, run from state `p`, finds the
registry without an entry written like the URL it stores. -/
def addsFresh : List Event → Prometheus → Bool
  | [], _ => true
  | e :: es, p =>
    (match e with
      | .Add pod => fresh pod p
      | .Delete _ => true
      | .Update oldPod newPod =>
        match unregisterPod oldPod p with
        | .returned p1 => fresh newPod p1
        | .panicked => true
        | .blocked => true) &&
    (match handle e p with
      | .returned p1 => addsFresh es p1
      | .panicked => true
      | .blocked => true)

/-- The plugin state after a sequence of events from the initial state (the
initial state when a callback does not return). -/
def stateAfter (es : List Event) : Prometheus :=
  ((run es Prometheus.init).result?).getD Prometheus.init

/-- Pod `10.0.0.5` with the label `prometheus.io/path=/other`. -/
def podLabelPath : Pod :=
  mkPod 9 "10.0.0.5" [("prometheus.io/scrape", "true")] [("prometheus.io/path", "/other")]
    (by decide) (by decide)

/-- Pod `10.0.0.5` with the label `prometheus.io/scrape=false`. -/
def podLabelScrape : Pod :=
  mkPod 10 "10.0.0.5" [("prometheus.io/scrape", "true")] [("prometheus.io/scrape", "false")]
    (by decide) (by decide)

/-- A pod that has no IP yet, with `prometheus.io/scrape = "true"`. -/
def podNoIP : Pod :=
  mkPod 11 "" [("prometheus.io/scrape", "true")] [] (by decide) (by decide)

/-- A pod with IP `10.0.0.5` whose annotation map is nil. -/
def podNilAnnotations : Pod :=
  { ObjectMeta := { Name := "p1", Namespace := "ns1", Labels := none, Annotations := none,
                    AnnotationsAddr := 0 },
    Status := { PodIP := "10.0.0.5" } }

/-- A pod with the IP string `a:b` and the port annotation `c`. -/
def podColonIP : Pod :=
  mkPod 12 "a:b" [("prometheus.io/scrape", "true"), ("prometheus.io/port", "c")] []
    (by decide) (by decide)

/-- A pod with the IP string `a` and the port annotation `b:c`. -/
def podColonPort : Pod :=
  mkPod 13 "a" [("prometheus.io/scrape", "true"), ("prometheus.io/port", "b:c")] []
    (by decide) (by decide)

/-- A byte of an IP address written as text: a hex digit, `.` or `:`. -/
def isIPByte (c : Char) : Bool := ishex c || c == '.' || c == ':'

/-- A decimal digit. -/
def isDigitByte (c : Char) : Bool := decide ('0' ≤ c ∧ c ≤ '9')

/-- Pod `10.0.0.5` with the port annotation `1@evil.com:80`. -/
def podEvilPort : Pod :=
  mkPod 14 "10.0.0.5" [("prometheus.io/scrape", "true"), ("prometheus.io/port", "1@evil.com:80")]
    [] (by decide) (by decide)

/-- Pod with the IPv6 address `fd00::1` and the port annotation `8080`. -/
def podV6 : Pod :=
  mkPod 15 "fd00::1" [("prometheus.io/scrape", "true"), ("prometheus.io/port", "8080")] []
    (by decide) (by decide)

/-- The `Address` of every entry of the registry, in order. -/
def addresses (p : Prometheus) : List String := p.kubernetesPods.map (fun v => v.Address)

/-- Pod at `10.0.0.1` with the label `prometheus.io/port=8080`. -/
def podPortOld : Pod :=
  mkPod 16 "10.0.0.1" [("prometheus.io/scrape", "true")] [("prometheus.io/port", "8080")]
    (by decide) (by decide)

/-- The same pod at `10.0.0.2`, as a new object. -/
def podPortNew : Pod :=
  mkPod 17 "10.0.0.2" [("prometheus.io/scrape", "true")] [("prometheus.io/port", "8080")]
    (by decide) (by decide)

/-- The plugin states in which the mutex is free while the Update callback
runs from state `p`: the state before `unregisterPod` takes the mutex, the
state between the return of `unregisterPod` and the `Lock` of `registerPod`,
and the state in which `registerPod` returns.  A goroutine that takes the
mutex to read the registry during the callback reads one of them. -/
def updateStates (oldPod newPod : Pod) (p : Prometheus) : List Prometheus :=
  (p :: (match unregisterPod oldPod p with
    | .returned p1 =>
      p1 :: (match registerPod newPod p1 with
        | .returned r => [r.2]
        | .panicked => []
        | .blocked => [])
    | .panicked => []
    | .blocked => [])).filter (fun q => !q.lock)

/-- The pod object after its label map is replaced by the one label `k=v`. -/
def withLabel (pod : Pod) (k v : String) : Pod :=
  { pod with ObjectMeta := { pod.ObjectMeta with Labels := some ⟨[(k, v)], by simp⟩ } }

/-- A pod with the IP string `A` and the port annotation `1@h:1`. -/
def podIPA : Pod :=
  mkPod 18 "A" [("prometheus.io/scrape", "true"), ("prometheus.io/port", "1@h:1")] []
    (by decide) (by decide)

/-- A pod with the IP string `%41` and the port annotation `1@h:1`. -/
def podIPEscaped : Pod :=
  mkPod 19 "%41" [("prometheus.io/scrape", "true"), ("prometheus.io/port", "1@h:1")] []
    (by decide) (by decide)

/-! ## Facts about strings and maps -/

theorem index_eq_true_iff (m : Option GoMap) (k : String) :
    index m k = "true" ↔ index? m k = some "true" := by
  cases m with
  | none => simp [index, index?]
  | some m =>
    simp only [index, index?]
    cases h : m.get k with
    | none => simp
    | some v => simp

theorem index_of_index? (m : Option GoMap) (k v : String) (h : index? m k = some v) :
    index m k = v := by
  cases m with
  | none => simp [index?] at h
  | some m => simp only [index?] at h; simp [index, h]

theorem hasPrefix_slash_iff (s : String) : hasPrefix s "/" = true ↔ ∃ r, s = "/" ++ r := by
  unfold hasPrefix
  constructor
  · intro h
    have h2 : ("/" : String).data <+: s.data := List.isPrefixOf_iff_prefix.1 h
    obtain ⟨t, ht⟩ := h2
    exact ⟨⟨t⟩, String.ext (by rw [String.data_append]; exact ht.symm)⟩
  · rintro ⟨r, rfl⟩
    rw [String.data_append]
    exact List.isPrefixOf_iff_prefix.2 (List.prefix_append _ _)

/-! ## The scrape address -/

/-- C1: `scrapeURL` returns nil exactly when the pod IP is empty or the
annotation `prometheus.io/scrape` is not (present and) exactly `"true"`; so an
empty IP gives nil whatever the annotations are. -/
theorem scrapeURL_eq_none_iff (pod : Pod) :
    scrapeURL pod = none ↔
      (pod.Status.PodIP = "" ∨
        index? pod.ObjectMeta.Annotations "prometheus.io/scrape" ≠ some "true") := by
  have hiff := index_eq_true_iff pod.ObjectMeta.Annotations "prometheus.io/scrape"
  rw [Ne, ← hiff]
  unfold scrapeURL
  by_cases hip : pod.Status.PodIP = ""
  · simp [hip]
  · by_cases hs : index pod.ObjectMeta.Annotations "prometheus.io/scrape" = "true"
    · simp [hip, hs]
    · simp [hip, hs]

/-- C2: for an eligible pod (IP not empty, `prometheus.io/scrape` is `"true"`)
`scrapeURL` returns `"http://" ++ IP ++ ":" ++ port ++ path`, the port being
the `prometheus.io/port` annotation or `9102` when that is absent or empty,
the path being the `prometheus.io/path` annotation, with a `/` put in front
when it does not start with one, or `/metrics` when absent or empty. -/
theorem scrapeURL_eligible (pod : Pod) (hip : pod.Status.PodIP ≠ "")
    (hs : index? pod.ObjectMeta.Annotations "prometheus.io/scrape" = some "true") :
    scrapeURL pod = some ("http://" ++ pod.Status.PodIP ++ ":" ++
      (match index? pod.ObjectMeta.Annotations "prometheus.io/port" with
        | none => "9102"
        | some port => if port = "" then "9102" else port) ++
      (match index? pod.ObjectMeta.Annotations "prometheus.io/path" with
        | none => "/metrics"
        | some path =>
          if path = "" then "/metrics"
          else if hasPrefix path "/" then path else "/" ++ path)) := by
  have hs2 := (index_eq_true_iff _ _).2 hs
  unfold scrapeURL
  simp only [hip, hs2, if_true, if_false]
  have hport : (if index pod.ObjectMeta.Annotations "prometheus.io/port" = "" then "9102"
        else index pod.ObjectMeta.Annotations "prometheus.io/port") =
      (match index? pod.ObjectMeta.Annotations "prometheus.io/port" with
        | none => "9102"
        | some port => if port = "" then "9102" else port) := by
    cases pod.ObjectMeta.Annotations with
    | none => simp [index, index?]
    | some m =>
      simp only [index, index?]
      cases m.get "prometheus.io/port" <;> simp
  have hpath : (if (!hasPrefix (if index pod.ObjectMeta.Annotations "prometheus.io/path" = ""
          then "/metrics" else index pod.ObjectMeta.Annotations "prometheus.io/path") "/") = true
        then "/" ++ (if index pod.ObjectMeta.Annotations "prometheus.io/path" = ""
          then "/metrics" else index pod.ObjectMeta.Annotations "prometheus.io/path")
        else (if index pod.ObjectMeta.Annotations "prometheus.io/path" = ""
          then "/metrics" else index pod.ObjectMeta.Annotations "prometheus.io/path")) =
      (match index? pod.ObjectMeta.Annotations "prometheus.io/path" with
        | none => "/metrics"
        | some path =>
          if path = "" then "/metrics"
          else if hasPrefix path "/" then path else "/" ++ path) := by
    have hm : hasPrefix "/metrics" "/" = true := by decide
    cases pod.ObjectMeta.Annotations with
    | none => simp [index, index?, hm]
    | some m =>
      simp only [index, index?]
      cases m.get "prometheus.io/path" with
      | none => simp [hm]
      | some v =>
        by_cases hv : v = ""
        · simp [hv, hm]
        · by_cases hp : hasPrefix v "/" = true
          · simp [hv, hp]
          · simp [hv, hp]
  simp only [hport, hpath]

/-- Witness of C2: IP `10.0.0.5`, scrape `"true"`, no port and no path
annotation give `http://10.0.0.5:9102/metrics`. -/
theorem scrapeURL_eligible_witness :
    podPlain.Status.PodIP ≠ "" ∧
    index? podPlain.ObjectMeta.Annotations "prometheus.io/scrape" = some "true" ∧
    scrapeURL podPlain = some ("http://" ++ podPlain.Status.PodIP ++ ":" ++
      (match index? podPlain.ObjectMeta.Annotations "prometheus.io/port" with
        | none => "9102"
        | some port => if port = "" then "9102" else port) ++
      (match index? podPlain.ObjectMeta.Annotations "prometheus.io/path" with
        | none => "/metrics"
        | some path =>
          if path = "" then "/metrics"
          else if hasPrefix path "/" then path else "/" ++ path)) ∧
    scrapeURL podPlain = some "http://10.0.0.5:9102/metrics" :=
  ⟨by decide, by decide, scrapeURL_eligible podPlain (by decide) (by decide), by decide⟩

/-- C3: for an eligible pod the returned URL is `"http://" ++ IP ++ ":" ++
port` followed by a path part that starts with `/`; when the
`prometheus.io/path` annotation is a non-empty string `s`, the path part is
`s` itself if `s` starts with `/`, and `"/" ++ s` otherwise. -/
theorem scrapeURL_path (pod : Pod) (hip : pod.Status.PodIP ≠ "")
    (hs : index? pod.ObjectMeta.Annotations "prometheus.io/scrape" = some "true") :
    ∃ path : String,
      scrapeURL pod = some ("http://" ++ pod.Status.PodIP ++ ":" ++
        (if index pod.ObjectMeta.Annotations "prometheus.io/port" = "" then "9102"
          else index pod.ObjectMeta.Annotations "prometheus.io/port") ++ path) ∧
      (∃ r, path = "/" ++ r) ∧
      ∀ s, index? pod.ObjectMeta.Annotations "prometheus.io/path" = some s → s ≠ "" →
        ((∃ r, s = "/" ++ r) → path = s) ∧ ((¬ ∃ r, s = "/" ++ r) → path = "/" ++ s) := by
  have hs2 := (index_eq_true_iff _ _).2 hs
  unfold scrapeURL
  simp only [hip, hs2, if_true, if_false]
  refine ⟨_, rfl, ?_, ?_⟩
  · by_cases hp : hasPrefix (if index pod.ObjectMeta.Annotations "prometheus.io/path" = ""
        then "/metrics" else index pod.ObjectMeta.Annotations "prometheus.io/path") "/" = true
    · simp only [hp, Bool.not_true, Bool.false_eq_true, if_false]
      exact (hasPrefix_slash_iff _).1 hp
    · simp only [Bool.not_eq_true] at hp
      simp only [hp, Bool.not_false, if_true]
      exact ⟨_, rfl⟩
  · intro s hpath hne
    have hidx := index_of_index? _ _ _ hpath
    simp only [hidx, hne, if_false]
    rw [← hasPrefix_slash_iff]
    by_cases hp : hasPrefix s "/" = true
    · simp [hp]
    · simp [hp]

/-- Witness of C3: the path annotation `custom` gives the path `/custom`. -/
theorem scrapeURL_path_witness :
    podCustom.Status.PodIP ≠ "" ∧
    index? podCustom.ObjectMeta.Annotations "prometheus.io/scrape" = some "true" ∧
    (∃ path : String,
      scrapeURL podCustom = some ("http://" ++ podCustom.Status.PodIP ++ ":" ++
        (if index podCustom.ObjectMeta.Annotations "prometheus.io/port" = "" then "9102"
          else index podCustom.ObjectMeta.Annotations "prometheus.io/port") ++ path) ∧
      (∃ r, path = "/" ++ r) ∧
      ∀ s, index? podCustom.ObjectMeta.Annotations "prometheus.io/path" = some s → s ≠ "" →
        ((∃ r, s = "/" ++ r) → path = s) ∧ ((¬ ∃ r, s = "/" ++ r) → path = "/" ++ s)) ∧
    scrapeURL podCustom = some ("http://10.0.0.5:9102" ++ "/custom") :=
  ⟨by decide, by decide, scrapeURL_path podCustom (by decide) (by decide), by decide⟩

/-! ## Facts about maps -/

theorem lookupEntry_filter_ne (k k2 : String) (es : List (String × String)) :
    lookupEntry k2 (es.filter (fun e => decide (e.1 ≠ k))) =
      if k2 = k then none else lookupEntry k2 es := by
  induction es with
  | nil => simp [lookupEntry]
  | cons e es ih =>
    by_cases he : e.1 = k
    · rw [List.filter_cons_of_neg (by simp [he]), ih]
      by_cases hk : k2 = k
      · simp [hk]
      · have : ¬ e.1 = k2 := fun h => hk (h.symm.trans he)
        simp [hk, lookupEntry, this]
    · rw [List.filter_cons_of_pos (by simp [he])]
      by_cases hk : k2 = k
      · have : ¬ e.1 = k2 := fun h => he (h.trans hk)
        simp only [lookupEntry, this, if_false, ih]
      · by_cases he2 : e.1 = k2
        · simp [lookupEntry, he2, hk]
        · simp only [lookupEntry, he2, if_false, ih]

theorem GoMap.get_set (m : GoMap) (k v k2 : String) :
    (m.set k v).get k2 = if k2 = k then some v else m.get k2 := by
  unfold GoMap.get GoMap.set
  by_cases hk : k2 = k
  · simp [lookupEntry, hk]
  · have hk2 : ¬ k = k2 := fun h => hk h.symm
    simp only [lookupEntry, hk, hk2, if_false]
    rw [lookupEntry_filter_ne]
    simp [hk]

theorem lookupEntry_eq_none_of_not_mem (k : String) (es : List (String × String))
    (h : k ∉ es.map Prod.fst) : lookupEntry k es = none := by
  induction es with
  | nil => rfl
  | cons e es ih =>
    simp only [List.map_cons, List.mem_cons, not_or] at h
    have h1 : ¬ e.1 = k := fun hh => h.1 hh.symm
    simp [lookupEntry, h1, ih h.2]

theorem foldl_set_get (es : List (String × String)) (hes : (es.map Prod.fst).Nodup)
    (tags : GoMap) (k : String) :
    (es.foldl (fun tags kv => tags.set kv.1 kv.2) tags).get k =
      match lookupEntry k es with
      | some v => some v
      | none => tags.get k := by
  induction es generalizing tags with
  | nil => simp [lookupEntry]
  | cons e es ih =>
    rw [List.map_cons, List.nodup_cons] at hes
    rw [List.foldl_cons, ih hes.2, GoMap.get_set]
    by_cases he : e.1 = k
    · subst he
      rw [lookupEntry_eq_none_of_not_mem _ _ hes.1]
      simp [lookupEntry]
    · have he2 : ¬ k = e.1 := fun h => he h.symm
      simp [lookupEntry, he, he2]

theorem podTags_get (pod : Pod) (tags : GoMap) (k : String) :
    (podTags pod tags).get k =
      match index? pod.ObjectMeta.Labels k with
      | some v => some v
      | none =>
        if k = "pod_name" then some pod.ObjectMeta.Name
        else if k = "namespace" then some pod.ObjectMeta.Namespace
        else tags.get k := by
  unfold podTags
  cases hl : pod.ObjectMeta.Labels with
  | none =>
    simp only [rangeEntries, index?, List.foldl_nil, GoMap.get_set]
    by_cases h1 : k = "namespace"
    · subst h1; simp
    · simp [h1]
  | some labels =>
    simp only [rangeEntries, index?]
    rw [foldl_set_get _ labels.nodup, GoMap.get_set, GoMap.get_set]
    unfold GoMap.get
    cases lookupEntry k labels.entries with
    | some v => rfl
    | none =>
      by_cases h1 : k = "namespace"
      · subst h1; simp
      · simp [h1]

/-! ## Registering a pod -/

theorem annotations_of_scrapeURL (pod : Pod) (u : String) (hu : scrapeURL pod = some u) :
    ∃ m, pod.ObjectMeta.Annotations = some m := by
  cases h : pod.ObjectMeta.Annotations with
  | some m => exact ⟨m, rfl⟩
  | none =>
    have hnone : scrapeURL pod = none := by
      unfold scrapeURL
      simp [h, index]
    rw [hnone] at hu
    cases hu

theorem registerPod_parsed (pod : Pod) (p : Prometheus) (u : String) (parsed : URL)
    (m : GoMap) (hu : scrapeURL pod = some u) (hparse : Parse u = some parsed)
    (hm : pod.ObjectMeta.Annotations = some m) (hlock : p.lock = false) :
    registerPod pod p = .returned
      ({ pod with ObjectMeta := { pod.ObjectMeta with Annotations := some (podTags pod m) } },
       { lock := false,
         kubernetesPods :=
           shareTags pod.ObjectMeta.AnnotationsAddr (podTags pod m) p.kubernetesPods ++
           [{ URL := AddressToURL parsed parsed.Hostname, Address := parsed.Hostname,
              OriginalURL := parsed, Tags := some (podTags pod m),
              TagsAddr := pod.ObjectMeta.AnnotationsAddr }] }) := by
  unfold registerPod
  simp only [hu, hlock, hm, hparse]
  rfl

/-- C4: for an eligible pod whose scrape URL parses, `registerPod` appends one
descriptor whose tag map reads, at every key `k`: the label value when `k` is a
label key; otherwise the pod name for `pod_name` and the namespace for
`namespace`; otherwise the annotation value of `k`, and nothing when `k` is no
annotation key either.  (The entries before it are those of the registry, an
entry that holds the same map reading the same tags.) -/
theorem registerPod_tags (pod : Pod) (p : Prometheus) (u : String)
    (hu : scrapeURL pod = some u) (hparse : Parse u ≠ none) (hlock : p.lock = false) :
    ∃ pod2 tags e, e.Tags = some tags ∧ registerPod pod p =
        .returned (pod2, { lock := false,
                           kubernetesPods :=
                             shareTags pod.ObjectMeta.AnnotationsAddr tags p.kubernetesPods ++
                               [e] }) ∧
      ∀ k, index? e.Tags k =
        match index? pod.ObjectMeta.Labels k with
        | some v => some v
        | none =>
          if k = "pod_name" then some pod.ObjectMeta.Name
          else if k = "namespace" then some pod.ObjectMeta.Namespace
          else index? pod.ObjectMeta.Annotations k := by
  obtain ⟨m, hm⟩ := annotations_of_scrapeURL pod u hu
  cases hp : Parse u with
  | none => exact absurd hp hparse
  | some parsed =>
    refine ⟨_, _, _, rfl, registerPod_parsed pod p u parsed m hu hp hm hlock, ?_⟩
    intro k
    simp only [index?, hm]
    exact podTags_get pod m k

/-- Witness of C4: annotation `env=staging`, label `env=prod`, name `p1`,
namespace `ns1` give the tags `env=prod`, `pod_name=p1`, `namespace=ns1`. -/
theorem registerPod_tags_witness :
    scrapeURL podEnv = some "http://10.0.0.5:9102/metrics" ∧
    Parse "http://10.0.0.5:9102/metrics" ≠ none ∧
    Prometheus.init.lock = false ∧
    (∃ pod2 tags e, e.Tags = some tags ∧ registerPod podEnv Prometheus.init =
        .returned (pod2, { lock := false,
                           kubernetesPods :=
                             shareTags podEnv.ObjectMeta.AnnotationsAddr tags
                               Prometheus.init.kubernetesPods ++ [e] }) ∧
      ∀ k, index? e.Tags k =
        match index? podEnv.ObjectMeta.Labels k with
        | some v => some v
        | none =>
          if k = "pod_name" then some podEnv.ObjectMeta.Name
          else if k = "namespace" then some podEnv.ObjectMeta.Namespace
          else index? podEnv.ObjectMeta.Annotations k) ∧
    (registerPod podEnv Prometheus.init).result?.map
        (fun r => (tagsAt r.2 "env", tagsAt r.2 "pod_name", tagsAt r.2 "namespace",
          tagsAt r.2 "prometheus.io/scrape")) =
      some ([some "prod"], [some "p1"], [some "ns1"], [some "true"]) :=
  ⟨by decide, by decide, by decide,
    registerPod_tags podEnv Prometheus.init "http://10.0.0.5:9102/metrics"
      (by decide) (by decide) (by decide),
    by decide⟩

/-! ## Unregistering a pod -/

theorem foldl_keep_eq_filter (c : URLAndAddress → Bool) (l acc : List URLAndAddress) :
    l.foldl (fun result v => if c v = true then result ++ [v] else result) acc =
      acc ++ l.filter c := by
  induction l generalizing acc with
  | nil => simp
  | cons v l ih =>
    rw [List.foldl_cons, ih]
    by_cases hc : c v = true
    · simp [hc]
    · simp [hc]

theorem unregisterPod_eq (pod : Pod) (p : Prometheus) (u : String)
    (hu : scrapeURL pod = some u) (hlock : p.lock = false) :
    unregisterPod pod p = .returned
      { lock := false,
        kubernetesPods := p.kubernetesPods.filter (fun v => decide (v.URL.render ≠ u)) } := by
  unfold unregisterPod
  simp only [hu, hlock, Bool.false_eq_true, if_false]
  have h := foldl_keep_eq_filter (fun v => decide (v.URL.render ≠ u)) p.kubernetesPods []
  simp only [decide_eq_true_eq, List.nil_append] at h
  rw [h]

theorem unregisterPod_of_none (pod : Pod) (p : Prometheus) (hu : scrapeURL pod = none) :
    unregisterPod pod p = .returned p := by
  unfold unregisterPod
  simp only [hu]

theorem urls_filter (l : List URLAndAddress) (u : String) :
    (l.filter (fun v => decide (v.URL.render ≠ u))).map (fun v => v.URL.render) =
      (l.map (fun v => v.URL.render)).filter (fun s => decide (s ≠ u)) := by
  rw [List.filter_map]
  rfl

theorem shareTags_render (addr : Nat) (tags : GoMap) (l : List URLAndAddress) :
    (shareTags addr tags l).map (fun v => v.URL.render) = l.map (fun v => v.URL.render) := by
  unfold shareTags
  rw [List.map_map]
  apply List.map_congr_left
  intro v _
  simp only [Function.comp]
  split <;> rfl

theorem shareTags_length (addr : Nat) (tags : GoMap) (l : List URLAndAddress) :
    (shareTags addr tags l).length = l.length := by
  unfold shareTags
  rw [List.length_map]

theorem shareTags_mem_render (addr : Nat) (tags : GoMap) (l : List URLAndAddress)
    (s : String) :
    (∃ v ∈ shareTags addr tags l, v.URL.render = s) ↔ ∃ v ∈ l, v.URL.render = s := by
  have h := shareTags_render addr tags l
  constructor
  · rintro ⟨v, hv, hs⟩
    have : s ∈ (shareTags addr tags l).map (fun v => v.URL.render) :=
      List.mem_map.2 ⟨v, hv, hs⟩
    rw [h] at this
    exact List.mem_map.1 this
  · rintro ⟨v, hv, hs⟩
    have : s ∈ l.map (fun v => v.URL.render) := List.mem_map.2 ⟨v, hv, hs⟩
    rw [← h] at this
    exact List.mem_map.1 this

theorem registerPod_urls (pod : Pod) (p : Prometheus) (r : Pod × Prometheus)
    (h : registerPod pod p = .returned r) :
    urls r.2 = urls p ++ (match storedURL pod with
      | some s => [s]
      | none => []) := by
  unfold registerPod at h
  unfold storedURL
  cases hu : scrapeURL pod with
  | none =>
    simp only [hu] at h
    cases h
    simp
  | some u =>
    simp only [hu] at h
    cases hl : p.lock with
    | true => simp [hl] at h
    | false =>
      simp only [hl] at h
      cases hm : pod.ObjectMeta.Annotations with
      | none => simp [hm] at h
      | some m =>
        simp only [hm] at h
        cases hp : Parse u with
        | none =>
          simp only [hp] at h
          cases h
          simp [urls, hp, shareTags_render]
        | some parsed =>
          simp only [hp] at h
          cases h
          simp [urls, hp, shareTags_render]

theorem registerPod_stored (pod : Pod) (p : Prometheus) (s : String)
    (hs : storedURL pod = some s) (hlock : p.lock = false) :
    ∃ pod2 tags e, registerPod pod p =
        .returned (pod2, { lock := false,
                           kubernetesPods :=
                             shareTags pod.ObjectMeta.AnnotationsAddr tags p.kubernetesPods ++
                               [e] }) ∧
      e.URL.render = s := by
  unfold storedURL at hs
  cases hu : scrapeURL pod with
  | none => simp [hu] at hs
  | some u =>
    simp only [hu] at hs
    cases hp : Parse u with
    | none => simp [hp] at hs
    | some parsed =>
      simp only [hp, Option.some.injEq] at hs
      obtain ⟨m, hm⟩ := annotations_of_scrapeURL pod u hu
      exact ⟨_, _, _, registerPod_parsed pod p u parsed m hu hp hm hlock, hs⟩

/-! ## The registry over a sequence of events -/

theorem unregisterPod_nodup (pod : Pod) (p p1 : Prometheus) (hp : (urls p).Nodup)
    (h : unregisterPod pod p = .returned p1) : (urls p1).Nodup := by
  cases hu : scrapeURL pod with
  | none =>
    rw [unregisterPod_of_none pod p hu] at h
    cases h
    exact hp
  | some u =>
    cases hl : p.lock with
    | true => simp [unregisterPod, hu, hl] at h
    | false =>
      rw [unregisterPod_eq pod p u hu hl] at h
      cases h
      simp only [urls]
      rw [urls_filter]
      exact hp.sublist (List.filter_sublist _)

theorem registerPod_nodup (pod : Pod) (p : Prometheus) (r : Pod × Prometheus)
    (hp : (urls p).Nodup) (hf : fresh pod p = true)
    (h : registerPod pod p = .returned r) : (urls r.2).Nodup := by
  rw [registerPod_urls pod p r h]
  unfold fresh at hf
  cases hs : storedURL pod with
  | none => simpa using hp
  | some s =>
    simp only [hs, decide_eq_true_eq] at hf
    simp only []
    rw [List.nodup_append]
    refine ⟨hp, List.nodup_singleton s, ?_⟩
    intro a ha hb
    rw [List.mem_singleton] at hb
    exact hf (hb ▸ ha)

theorem handle_nodup (e : Event) (p p1 : Prometheus) (hp : (urls p).Nodup)
    (hf : addsFresh [e] p = true) (h : handle e p = .returned p1) : (urls p1).Nodup := by
  cases e with
  | Add pod =>
    simp only [addsFresh, Bool.and_eq_true] at hf
    simp only [handle, AddFunc] at h
    cases hr : registerPod pod p with
    | returned r =>
      simp only [hr, Outcome.returned.injEq] at h
      subst h
      exact registerPod_nodup pod p r hp hf.1 hr
    | panicked => simp [hr] at h
    | blocked => simp [hr] at h
  | Delete pod =>
    exact unregisterPod_nodup pod p p1 hp h
  | Update oldPod newPod =>
    simp only [addsFresh, Bool.and_eq_true] at hf
    simp only [handle, UpdateFunc] at h
    cases hun : unregisterPod oldPod p with
    | returned p2 =>
      simp only [hun] at h hf
      cases hr : registerPod newPod p2 with
      | returned r =>
        simp only [hr, Outcome.returned.injEq] at h
        subst h
        exact registerPod_nodup newPod p2 r (unregisterPod_nodup oldPod p p2 hp hun) hf.1 hr
      | panicked => simp [hr] at h
      | blocked => simp [hr] at h
    | panicked => simp [hun] at h
    | blocked => simp [hun] at h

theorem run_nodup (es : List Event) (p0 p : Prometheus) (hp : (urls p0).Nodup)
    (hf : addsFresh es p0 = true) (h : run es p0 = .returned p) : (urls p).Nodup := by
  induction es generalizing p0 with
  | nil =>
    simp only [run, Outcome.returned.injEq] at h
    exact h ▸ hp
  | cons e es ih =>
    simp only [run] at h
    cases he : handle e p0 with
    | returned p1 =>
      simp only [he] at h
      have hf2 := hf
      simp only [addsFresh, Bool.and_eq_true, he] at hf2
      have hf1 : addsFresh [e] p0 = true := by
        simp only [addsFresh, Bool.and_eq_true, he, and_true]
        exact hf2.1
      exact ih p1 (handle_nodup e p0 p1 hp hf1 he) hf2.2 h
    | panicked => simp [he] at h
    | blocked => simp [he] at h

/-- C5 as the code has it: from the empty registry, after every finite sequence
of Add, Delete and Update events in which each `registerPod` finds no entry
written like the URL it stores, no two entries of the registry are written
alike. -/
theorem registry_nodup_of_addsFresh (es : List Event) (p : Prometheus)
    (hf : addsFresh es Prometheus.init = true)
    (h : run es Prometheus.init = .returned p) : (urls p).Nodup :=
  run_nodup es Prometheus.init p (by simp [urls, Prometheus.init]) hf h

/-- Witness of C5: add two pods, delete the first and add it again. -/
theorem registry_nodup_of_addsFresh_witness :
    addsFresh [.Add podPlain, .Add podCustom, .Delete podPlain, .Add podPlain]
      Prometheus.init = true ∧
    run [.Add podPlain, .Add podCustom, .Delete podPlain, .Add podPlain] Prometheus.init =
      .returned (stateAfter [.Add podPlain, .Add podCustom, .Delete podPlain, .Add podPlain]) ∧
    (urls (stateAfter [.Add podPlain, .Add podCustom, .Delete podPlain,
      .Add podPlain])).Nodup ∧
    urls (stateAfter [.Add podPlain, .Add podCustom, .Delete podPlain, .Add podPlain]) =
      ["http://10.0.0.5:9102/custom", "http://10.0.0.5:9102/metrics"] :=
  ⟨by decide, by decide,
    registry_nodup_of_addsFresh
      [.Add podPlain, .Add podCustom, .Delete podPlain, .Add podPlain] _
      (by decide) (by decide),
    by decide⟩

/-- C5 fails as stated: the same eligible pod delivered in two Add events
leaves two entries with the same URL, whether the second event carries the
pod as first delivered or the object as `registerPod` left it. -/
theorem registry_duplicate_after_two_adds :
    (∃ p, run [.Add podPlain, .Add podPlain] Prometheus.init = .returned p ∧
      urls p = ["http://10.0.0.5:9102/metrics", "http://10.0.0.5:9102/metrics"] ∧
      ¬ (urls p).Nodup) ∧
    ((registerPod podPlain Prometheus.init).bind
        (fun r => registerPod r.1 r.2)).result?.map (fun r => urls r.2) =
      some ["http://10.0.0.5:9102/metrics", "http://10.0.0.5:9102/metrics"] :=
  ⟨⟨stateAfter [.Add podPlain, .Add podPlain], by decide, by decide, by decide⟩, by decide⟩

/-! ## Add then delete -/

/-- C6 fails on the code.  Pod `10.0.0.5` with the label
`prometheus.io/port=8080`: `registerPod` stores the URL with port 9102 and
writes the label into the pod's annotations, so `unregisterPod` of the same
object looks for port 8080 and the entry stays.  Pod `10.0.0.5` with the path
annotation `a b`: the stored URL is written with `%20`, `unregisterPod`
compares it with the unescaped scrape address, and the entry stays. -/
theorem registerPod_unregisterPod_leaves_entry :
    scrapeURL podLabelPort = some "http://10.0.0.5:9102/metrics" ∧
    (registerPod podLabelPort Prometheus.init).result?.map (fun r => scrapeURL r.1) =
      some (some "http://10.0.0.5:8080/metrics") ∧
    ((registerPod podLabelPort Prometheus.init).bind
        (fun r => unregisterPod r.1 r.2)).result?.map urls =
      some ["http://10.0.0.5:9102/metrics"] ∧
    scrapeURL podSpace = some "http://10.0.0.5:9102/a b" ∧
    (registerPod podSpace Prometheus.init).result?.map (fun r => scrapeURL r.1) =
      some (some "http://10.0.0.5:9102/a b") ∧
    ((registerPod podSpace Prometheus.init).bind
        (fun r => unregisterPod r.1 r.2)).result?.map urls =
      some ["http://10.0.0.5:9102/a%20b"] := by
  refine ⟨?_, ?_, ?_, ?_, ?_, ?_⟩ <;> decide

/-! ## Delete -/

theorem unregisterPod_twice (pod : Pod) (q : Prometheus) (hq : q.lock = false) :
    (unregisterPod pod q).bind (unregisterPod pod) = unregisterPod pod q := by
  cases hu : scrapeURL pod with
  | none =>
    rw [unregisterPod_of_none pod q hu]
    simp only [Outcome.bind]
    exact unregisterPod_of_none pod q hu
  | some u =>
    rw [unregisterPod_eq pod q u hu hq]
    simp only [Outcome.bind]
    rw [unregisterPod_eq pod _ u hu rfl]
    simp only [List.filter_filter, Bool.and_self]

/-- C7: when the pod is ineligible, or the mutex is free and no registry entry
is written like the pod's scrape address, `unregisterPod` returns with the
plugin state (the registry entries and their order) unchanged; and from every
state with the mutex free, `unregisterPod` twice ends like `unregisterPod`
once. -/
theorem unregisterPod_absent (pod : Pod) (p : Prometheus)
    (habs : scrapeURL pod = none ∨
      (p.lock = false ∧ ∀ v ∈ p.kubernetesPods, scrapeURL pod ≠ some v.URL.render)) :
    unregisterPod pod p = .returned p ∧
    ∀ q : Prometheus, q.lock = false →
      (unregisterPod pod q).bind (unregisterPod pod) = unregisterPod pod q := by
  refine ⟨?_, fun q hq => unregisterPod_twice pod q hq⟩
  cases hu : scrapeURL pod with
  | none => exact unregisterPod_of_none pod p hu
  | some u =>
    rcases habs with h | ⟨hlock, hall⟩
    · rw [hu] at h
      cases h
    · rw [unregisterPod_eq pod p u hu hlock]
      have hfil : p.kubernetesPods.filter (fun v => decide (v.URL.render ≠ u)) =
          p.kubernetesPods := by
        rw [List.filter_eq_self]
        intro v hv
        have := hall v hv
        rw [hu] at this
        simp only [decide_eq_true_eq]
        intro heq
        exact this (by rw [heq])
      rw [hfil]
      cases p
      simp only at hlock
      simp [hlock]

/-- Witness of C7: a pod that was never added, on a registry holding another
pod. -/
theorem unregisterPod_absent_witness :
    (scrapeURL podPlain = none ∨
      ((stateAfter [.Add podCustom]).lock = false ∧
        ∀ v ∈ (stateAfter [.Add podCustom]).kubernetesPods,
          scrapeURL podPlain ≠ some v.URL.render)) ∧
    (unregisterPod podPlain (stateAfter [.Add podCustom]) =
        .returned (stateAfter [.Add podCustom]) ∧
      ∀ q : Prometheus, q.lock = false →
        (unregisterPod podPlain q).bind (unregisterPod podPlain) = unregisterPod podPlain q) ∧
    urls (stateAfter [.Add podCustom]) = ["http://10.0.0.5:9102/custom"] :=
  ⟨by decide, unregisterPod_absent podPlain (stateAfter [.Add podCustom]) (by decide),
    by decide⟩

/-- C8: for a pod with scrape address `u` and the mutex free, the registry
after `unregisterPod` is the registry before without the entries written `u`:
the other entries, each as it was, in their order. -/
theorem unregisterPod_filter (pod : Pod) (p : Prometheus) (u : String)
    (hu : scrapeURL pod = some u) (hlock : p.lock = false) :
    ∃ p2, unregisterPod pod p = .returned p2 ∧
      p2.kubernetesPods = p.kubernetesPods.filter (fun v => decide (v.URL.render ≠ u)) ∧
      p2.kubernetesPods.Sublist p.kubernetesPods ∧
      ∀ v, v ∈ p2.kubernetesPods ↔ (v ∈ p.kubernetesPods ∧ v.URL.render ≠ u) := by
  refine ⟨_, unregisterPod_eq pod p u hu hlock, rfl, List.filter_sublist _, ?_⟩
  intro v
  simp only [List.mem_filter, decide_eq_true_eq]

/-- Witness of C8: the registry holds `podPlain` twice, around `podCustom`;
`unregisterPod podPlain` leaves `podCustom`. -/
theorem unregisterPod_filter_witness :
    scrapeURL podPlain = some "http://10.0.0.5:9102/metrics" ∧
    (stateAfter [.Add podPlain, .Add podCustom, .Add podPlain]).lock = false ∧
    (∃ p2, unregisterPod podPlain (stateAfter [.Add podPlain, .Add podCustom, .Add podPlain]) =
        .returned p2 ∧
      p2.kubernetesPods =
        (stateAfter [.Add podPlain, .Add podCustom, .Add podPlain]).kubernetesPods.filter
          (fun v => decide (v.URL.render ≠ "http://10.0.0.5:9102/metrics")) ∧
      p2.kubernetesPods.Sublist
        (stateAfter [.Add podPlain, .Add podCustom, .Add podPlain]).kubernetesPods ∧
      ∀ v, v ∈ p2.kubernetesPods ↔
        (v ∈ (stateAfter [.Add podPlain, .Add podCustom, .Add podPlain]).kubernetesPods ∧
          v.URL.render ≠ "http://10.0.0.5:9102/metrics")) ∧
    urls (stateAfter [.Add podPlain, .Add podCustom, .Add podPlain]) =
      ["http://10.0.0.5:9102/metrics", "http://10.0.0.5:9102/custom",
        "http://10.0.0.5:9102/metrics"] ∧
    (unregisterPod podPlain
        (stateAfter [.Add podPlain, .Add podCustom, .Add podPlain])).result?.map urls =
      some ["http://10.0.0.5:9102/custom"] :=
  ⟨by decide, by decide,
    unregisterPod_filter podPlain _ "http://10.0.0.5:9102/metrics" (by decide) (by decide),
    by decide, by decide⟩

/-! ## Update -/

/-- C9 fails on the code.  The pod moves from `10.0.0.1` to `10.0.0.2`; both
objects are eligible, their scrape URLs parse and are stored as written, and
the pod has the label `prometheus.io/port=8080`.  The Add event stores
`http://10.0.0.1:9102/metrics` and writes the label into the annotations of
the old object.  The Update event then looks for port 8080, removes nothing
and appends the new URL: the registry holds the old URL next to the new one. -/
theorem UpdateFunc_keeps_old_entry :
    scrapeURL podPortOld = some "http://10.0.0.1:9102/metrics" ∧
    scrapeURL podPortNew = some "http://10.0.0.2:9102/metrics" ∧
    storedURL podPortOld = some "http://10.0.0.1:9102/metrics" ∧
    storedURL podPortNew = some "http://10.0.0.2:9102/metrics" ∧
    podPortOld.Status.PodIP ≠ podPortNew.Status.PodIP ∧
    (registerPod podPortOld Prometheus.init).result?.map (fun r => urls r.2) =
      some ["http://10.0.0.1:9102/metrics"] ∧
    (registerPod podPortOld Prometheus.init).result?.map (fun r => scrapeURL r.1) =
      some (some "http://10.0.0.1:8080/metrics") ∧
    ((registerPod podPortOld Prometheus.init).bind
        (fun r => UpdateFunc r.1 podPortNew r.2)).result?.map (fun r => urls r.2) =
      some ["http://10.0.0.1:9102/metrics", "http://10.0.0.2:9102/metrics"] := by
  refine ⟨?_, ?_, ?_, ?_, ?_, ?_, ?_, ?_⟩ <;> decide

/-! ## The registry while an Update runs -/

theorem mem_updateStates (oldPod newPod : Pod) (p q : Prometheus) :
    q ∈ updateStates oldPod newPod p ↔
      q.lock = false ∧
        (q = p ∨ unregisterPod oldPod p = .returned q ∨
          ∃ p1 pod2, unregisterPod oldPod p = .returned p1 ∧
            registerPod newPod p1 = .returned (pod2, q)) := by
  unfold updateStates
  simp only [List.mem_filter, Bool.not_eq_true', List.mem_cons]
  constructor
  · rintro ⟨hmem, hl⟩
    refine ⟨hl, ?_⟩
    rcases hmem with h | hmem
    · exact Or.inl h
    · cases hun : unregisterPod oldPod p with
      | returned p1 =>
        simp only [hun, List.mem_cons] at hmem
        rcases hmem with h | hmem
        · exact Or.inr (Or.inl (by rw [h]))
        · cases hr : registerPod newPod p1 with
          | returned r =>
            simp only [hr, List.mem_singleton] at hmem
            exact Or.inr (Or.inr ⟨p1, r.1, rfl, by rw [hmem, hr]⟩)
          | panicked => simp [hr] at hmem
          | blocked => simp [hr] at hmem
      | panicked => simp [hun] at hmem
      | blocked => simp [hun] at hmem
  · rintro ⟨hl, h⟩
    refine ⟨?_, hl⟩
    rcases h with h | h | ⟨p1, pod2, hun, hr⟩
    · exact Or.inl h
    · right
      simp only [h, List.mem_cons, true_or]
    · right
      simp only [hun, hr, List.mem_cons, List.mem_singleton, or_true, true_or]

/-- C15 as the code has it: `unregisterPod` and `registerPod` take and release
the mutex one after the other.  With the mutex free at the start and an
eligible old pod, the states in which the mutex is free while the Update
callback runs are the state before, the state after the Update, and the state
between the two calls, in which the entries at the old scrape address are
removed and the new one is not yet added; that state has the mutex free, is a
sublist of the registry before, and has no two entries written alike unless
the registry before had. -/
theorem updateStates_between (oldPod newPod : Pod) (p : Prometheus) (uo : String)
    (hlock : p.lock = false) (ho : scrapeURL oldPod = some uo) :
    p ∈ updateStates oldPod newPod p ∧
    (∃ p1, unregisterPod oldPod p = .returned p1 ∧ p1 ∈ updateStates oldPod newPod p ∧
      p1.lock = false ∧
      p1.kubernetesPods = p.kubernetesPods.filter (fun v => decide (v.URL.render ≠ uo)) ∧
      uo ∉ urls p1 ∧ p1.kubernetesPods.Sublist p.kubernetesPods ∧
      ((urls p).Nodup → (urls p1).Nodup)) ∧
    ∀ q ∈ updateStates oldPod newPod p,
      q = p ∨ unregisterPod oldPod p = .returned q ∨
        ∃ pod2, UpdateFunc oldPod newPod p = .returned (pod2, q) := by
  have hun := unregisterPod_eq oldPod p uo ho hlock
  refine ⟨?_, ⟨_, hun, ?_, rfl, rfl, ?_, List.filter_sublist _, ?_⟩, ?_⟩
  · exact (mem_updateStates oldPod newPod p p).2 ⟨hlock, Or.inl rfl⟩
  · exact (mem_updateStates oldPod newPod p _).2 ⟨rfl, Or.inr (Or.inl hun)⟩
  · simp only [urls]
    rw [urls_filter]
    intro hmem
    have := (List.mem_filter.1 hmem).2
    simp at this
  · intro hnd
    exact unregisterPod_nodup oldPod p _ hnd hun
  · intro q hq
    rcases (mem_updateStates oldPod newPod p q).1 hq with ⟨_, h | h | ⟨p1, pod2, h1, h2⟩⟩
    · exact Or.inl h
    · exact Or.inr (Or.inl h)
    · refine Or.inr (Or.inr ⟨pod2, ?_⟩)
      unfold UpdateFunc
      rw [h1]
      exact h2

/-- Witness of C15: the pod moves from `10.0.0.1` to `10.0.0.2`. -/
theorem updateStates_between_witness :
    (stateAfter [.Add podOld]).lock = false ∧
    scrapeURL podOld = some "http://10.0.0.1:9102/metrics" ∧
    (stateAfter [.Add podOld] ∈ updateStates podOld podNew (stateAfter [.Add podOld]) ∧
      (∃ p1, unregisterPod podOld (stateAfter [.Add podOld]) = .returned p1 ∧
        p1 ∈ updateStates podOld podNew (stateAfter [.Add podOld]) ∧
        p1.lock = false ∧
        p1.kubernetesPods = (stateAfter [.Add podOld]).kubernetesPods.filter
          (fun v => decide (v.URL.render ≠ "http://10.0.0.1:9102/metrics")) ∧
        "http://10.0.0.1:9102/metrics" ∉ urls p1 ∧
        p1.kubernetesPods.Sublist (stateAfter [.Add podOld]).kubernetesPods ∧
        ((urls (stateAfter [.Add podOld])).Nodup → (urls p1).Nodup)) ∧
      ∀ q ∈ updateStates podOld podNew (stateAfter [.Add podOld]),
        q = stateAfter [.Add podOld] ∨
          unregisterPod podOld (stateAfter [.Add podOld]) = .returned q ∨
          ∃ pod2, UpdateFunc podOld podNew (stateAfter [.Add podOld]) = .returned (pod2, q)) :=
  ⟨by decide, by decide,
    updateStates_between podOld podNew (stateAfter [.Add podOld])
      "http://10.0.0.1:9102/metrics" (by decide) (by decide)⟩

/-- C15 fails as stated: while the Update from `10.0.0.1` to `10.0.0.2` runs,
the mutex is free three times, and the second time, between `unregisterPod`
and `registerPod`, the registry is neither the one before nor the one after:
it has no entry for the pod. -/
theorem updateStates_shows_empty_registry :
    (registerPod podOld Prometheus.init).result?.map
        (fun r => (updateStates r.1 podNew r.2).map (fun q => (q.lock, urls q))) =
      some [(false, ["http://10.0.0.1:9102/metrics"]), (false, []),
        (false, ["http://10.0.0.2:9102/metrics"])] := by
  decide

/-! ## The pod object -/

/-- C10 fails on the code: `tags` is the annotation map of the pod itself, and
after `registerPod` the pod's annotations hold `pod_name` and `namespace`,
which they did not before, and the value of the label `env` in place of the
annotation `env`. -/
theorem registerPod_writes_annotations :
    index? podEnv.ObjectMeta.Annotations "pod_name" = none ∧
    index? podEnv.ObjectMeta.Annotations "namespace" = none ∧
    index? podEnv.ObjectMeta.Annotations "env" = some "staging" ∧
    (registerPod podEnv Prometheus.init).result?.map
        (fun r => (index? r.1.ObjectMeta.Annotations "pod_name",
          index? r.1.ObjectMeta.Annotations "namespace",
          index? r.1.ObjectMeta.Annotations "env")) =
      some (some "p1", some "ns1", some "prod") := by
  refine ⟨?_, ?_, ?_, ?_⟩ <;> decide

/-! ## The scrape address after `registerPod` -/

/-- C11 fails on the code: `registerPod` writes the labels into the annotation
map `scrapeURL` reads.  With the label `prometheus.io/port=8080` the address
computed after `registerPod` has port 8080 where `registerPod` computed 9102;
with the label `prometheus.io/path=/other` the path changes; with the label
`prometheus.io/scrape=false` the pod is no longer eligible. -/
theorem scrapeURL_after_registerPod_differs :
    scrapeURL podLabelPort = some "http://10.0.0.5:9102/metrics" ∧
    (registerPod podLabelPort Prometheus.init).result?.map (fun r => scrapeURL r.1) =
      some (some "http://10.0.0.5:8080/metrics") ∧
    scrapeURL podLabelPath = some "http://10.0.0.5:9102/metrics" ∧
    (registerPod podLabelPath Prometheus.init).result?.map (fun r => scrapeURL r.1) =
      some (some "http://10.0.0.5:9102/other") ∧
    scrapeURL podLabelScrape = some "http://10.0.0.5:9102/metrics" ∧
    (registerPod podLabelScrape Prometheus.init).result?.map (fun r => scrapeURL r.1) =
      some none := by
  refine ⟨?_, ?_, ?_, ?_, ?_, ?_⟩ <;> decide

/-! ## Pods that are not registered -/

theorem registerPod_of_none (pod : Pod) (p : Prometheus) (h : scrapeURL pod = none) :
    registerPod pod p = .returned (pod, p) := by
  unfold registerPod
  simp only [h]

theorem registerPod_returned_cases (pod : Pod) (p : Prometheus) (r : Pod × Prometheus)
    (h : registerPod pod p = .returned r) :
    r.2.kubernetesPods = p.kubernetesPods ∨
      (∃ tags, r.2.kubernetesPods =
        shareTags pod.ObjectMeta.AnnotationsAddr tags p.kubernetesPods) ∨
      ∃ u parsed tags e, scrapeURL pod = some u ∧ Parse u = some parsed ∧
        e.OriginalURL = parsed ∧ e.URL = AddressToURL parsed parsed.Hostname ∧
        r.2.kubernetesPods =
          shareTags pod.ObjectMeta.AnnotationsAddr tags p.kubernetesPods ++ [e] := by
  unfold registerPod at h
  cases hu : scrapeURL pod with
  | none =>
    simp only [hu] at h
    cases h
    exact Or.inl rfl
  | some u =>
    simp only [hu] at h
    cases hl : p.lock with
    | true => simp [hl] at h
    | false =>
      simp only [hl] at h
      cases hm : pod.ObjectMeta.Annotations with
      | none => simp [hm] at h
      | some m =>
        simp only [hm] at h
        cases hp : Parse u with
        | none =>
          simp only [hp] at h
          cases h
          exact Or.inr (Or.inl ⟨_, rfl⟩)
        | some parsed =>
          simp only [hp] at h
          cases h
          exact Or.inr (Or.inr ⟨u, parsed, _, _, rfl, hp, rfl, rfl, rfl⟩)

/-- C12: for a pod with `scrapeURL` nil, `registerPod` returns with the plugin
state (and the pod) unchanged, whatever the registry and the mutex are; and
whenever a `registerPod` returns, either it has appended no entry (the
registry has the entries it had, an entry that holds the pod's annotation map
reading the tags written to it), or it has appended one entry whose URL was
parsed from the `scrapeURL` of its pod. -/
theorem registerPod_ineligible (pod : Pod) (p : Prometheus) (h : scrapeURL pod = none) :
    registerPod pod p = .returned (pod, p) ∧
    ∀ (pod2 : Pod) (q : Prometheus) (r : Pod × Prometheus),
      registerPod pod2 q = .returned r →
        r.2.kubernetesPods = q.kubernetesPods ∨
        (∃ tags, r.2.kubernetesPods =
          shareTags pod2.ObjectMeta.AnnotationsAddr tags q.kubernetesPods) ∨
        ∃ u parsed tags e, scrapeURL pod2 = some u ∧ Parse u = some parsed ∧
          e.OriginalURL = parsed ∧ e.URL = AddressToURL parsed parsed.Hostname ∧
          r.2.kubernetesPods =
            shareTags pod2.ObjectMeta.AnnotationsAddr tags q.kubernetesPods ++ [e] :=
  ⟨registerPod_of_none pod p h, fun pod2 q r hr => registerPod_returned_cases pod2 q r hr⟩

/-- Witness of C12: a pod without IP, on a registry that holds an entry. -/
theorem registerPod_ineligible_witness :
    scrapeURL podNoIP = none ∧
    (registerPod podNoIP (stateAfter [.Add podPlain]) =
        .returned (podNoIP, stateAfter [.Add podPlain]) ∧
      ∀ (pod2 : Pod) (q : Prometheus) (r : Pod × Prometheus),
        registerPod pod2 q = .returned r →
          r.2.kubernetesPods = q.kubernetesPods ∨
          (∃ tags, r.2.kubernetesPods =
            shareTags pod2.ObjectMeta.AnnotationsAddr tags q.kubernetesPods) ∨
          ∃ u parsed tags e, scrapeURL pod2 = some u ∧ Parse u = some parsed ∧
            e.OriginalURL = parsed ∧ e.URL = AddressToURL parsed parsed.Hostname ∧
            r.2.kubernetesPods =
              shareTags pod2.ObjectMeta.AnnotationsAddr tags q.kubernetesPods ++ [e]) ∧
    urls (stateAfter [.Add podPlain]) = ["http://10.0.0.5:9102/metrics"] :=
  ⟨by decide, registerPod_ineligible podNoIP (stateAfter [.Add podPlain]) (by decide),
    by decide⟩

/-! ## The scrape address that does not parse -/

/-- C13 fails on the code.  For the pod `10.0.0.2` with port annotation `abc`
the address does not parse; `registerPod` returns and the registry list is as
before, but the mutex is left held, and the pod's annotations have gained
`pod_name` and `namespace`. -/
theorem registerPod_unparsable_leaves_state :
    scrapeURL podNewBadPort = some "http://10.0.0.2:abc/metrics" ∧
    Parse "http://10.0.0.2:abc/metrics" = none ∧
    (stateAfter [.Add podPlain]).lock = false ∧
    (registerPod podNewBadPort (stateAfter [.Add podPlain])).result?.map
        (fun r => (r.2.kubernetesPods, r.2.lock)) =
      some ((stateAfter [.Add podPlain]).kubernetesPods, true) ∧
    index? podNewBadPort.ObjectMeta.Annotations "pod_name" = none ∧
    (registerPod podNewBadPort (stateAfter [.Add podPlain])).result?.map
        (fun r => (index? r.1.ObjectMeta.Annotations "pod_name",
          index? r.1.ObjectMeta.Annotations "namespace")) =
      some (some "p1", some "ns1") := by
  refine ⟨?_, ?_, ?_, ?_, ?_, ?_⟩ <;> decide

/-! ## The mutex -/

/-- C14 fails on the code: on the parse error `registerPod` returns without
`Unlock`.  From the initial state the mutex is held after `registerPod` of the
pod with port annotation `abc`, and the next Add, Delete or Update of an
eligible pod waits for it forever. -/
theorem registerPod_unparsable_keeps_lock :
    Prometheus.init.lock = false ∧
    (registerPod podNewBadPort Prometheus.init).result?.map (fun r => r.2.lock) = some true ∧
    run [.Add podNewBadPort, .Add podPlain] Prometheus.init = .blocked ∧
    run [.Add podNewBadPort, .Delete podPlain] Prometheus.init = .blocked ∧
    run [.Add podNewBadPort, .Update podPlain podCustom] Prometheus.init = .blocked := by
  refine ⟨?_, ?_, ?_, ?_, ?_⟩ <;> decide

/-! ## A successful add -/

/-- C16 fails on the code.  The registry holds the entry of pod `10.0.0.5`
with the tag `env=prod`, and the entry's `Tags` is the annotation map of that
pod object.  The label of the object is changed to `env=qa` and `registerPod`
runs on it again: one entry is appended, but the writes to `tags` are writes
to the map the earlier entry holds, whose tag `env` is now `qa`. -/
theorem registerPod_changes_earlier_entry :
    (registerPod podEnv Prometheus.init).result?.map
        (fun r => (urls r.2, tagsAt r.2 "env")) =
      some (["http://10.0.0.5:9102/metrics"], [some "prod"]) ∧
    ((registerPod podEnv Prometheus.init).bind
        (fun r => registerPod (withLabel r.1 "env" "qa") r.2)).result?.map
          (fun r => (urls r.2, tagsAt r.2 "env")) =
      some (["http://10.0.0.5:9102/metrics", "http://10.0.0.5:9102/metrics"],
        [some "qa", some "qa"]) := by
  refine ⟨?_, ?_⟩ <;> decide

/-! ## The nil map -/

/-- C18: `registerPod` never panics: whenever `scrapeURL` returns a URL the
annotation map of the pod is not nil and holds `prometheus.io/scrape` with
value `"true"`, so the writes to `tags` are writes to a non-nil map; a pod
with a nil annotation map is not eligible. -/
theorem registerPod_never_panics (pod : Pod) (p : Prometheus) :
    registerPod pod p ≠ .panicked ∧
    (∀ u, scrapeURL pod = some u →
      ∃ m, pod.ObjectMeta.Annotations = some m ∧ m.get "prometheus.io/scrape" = some "true") ∧
    (pod.ObjectMeta.Annotations = none → registerPod pod p = .returned (pod, p)) := by
  have hkey : ∀ u, scrapeURL pod = some u →
      ∃ m, pod.ObjectMeta.Annotations = some m ∧
        m.get "prometheus.io/scrape" = some "true" := by
    intro u hu
    obtain ⟨m, hm⟩ := annotations_of_scrapeURL pod u hu
    refine ⟨m, hm, ?_⟩
    have hidx : index? pod.ObjectMeta.Annotations "prometheus.io/scrape" = some "true" := by
      rw [← index_eq_true_iff]
      unfold scrapeURL at hu
      by_cases hip : pod.Status.PodIP = ""
      · simp [hip] at hu
      · by_cases hs : index pod.ObjectMeta.Annotations "prometheus.io/scrape" = "true"
        · exact hs
        · simp [hip, hs] at hu
    simpa [index?, hm] using hidx
  refine ⟨?_, hkey, ?_⟩
  · intro hpanic
    unfold registerPod at hpanic
    cases hu : scrapeURL pod with
    | none => simp [hu] at hpanic
    | some u =>
      obtain ⟨m, hm, _⟩ := hkey u hu
      simp only [hu, hm] at hpanic
      cases hl : p.lock with
      | true => simp [hl] at hpanic
      | false =>
        simp only [hl] at hpanic
        cases hp : Parse u with
        | none => simp [hp] at hpanic
        | some parsed => simp [hp] at hpanic
  · intro hnil
    cases hu : scrapeURL pod with
    | none => exact registerPod_of_none pod p hu
    | some u =>
      obtain ⟨m, hm, _⟩ := hkey u hu
      rw [hnil] at hm
      cases hm

/-! ## Different IPs, different scrape addresses -/

theorem scrapeURL_form (pod : Pod) (u : String) (hu : scrapeURL pod = some u) :
    ∃ port r : String,
      u = "http://" ++ pod.Status.PodIP ++ ":" ++ port ++ ("/" ++ r) ∧
      port = (if index pod.ObjectMeta.Annotations "prometheus.io/port" = "" then "9102"
        else index pod.ObjectMeta.Annotations "prometheus.io/port") ∧
      pod.Status.PodIP ≠ "" := by
  unfold scrapeURL at hu
  by_cases hip : pod.Status.PodIP = ""
  · simp [hip] at hu
  · by_cases hs : index pod.ObjectMeta.Annotations "prometheus.io/scrape" = "true"
    · simp only [hip, hs, if_true, if_false, Option.some.injEq] at hu
      by_cases hp : hasPrefix (if index pod.ObjectMeta.Annotations "prometheus.io/path" = ""
          then "/metrics" else index pod.ObjectMeta.Annotations "prometheus.io/path") "/" = true
      · obtain ⟨r, hr⟩ := (hasPrefix_slash_iff _).1 hp
        simp only [hp, Bool.not_true, Bool.false_eq_true, if_false] at hu
        rw [hr] at hu
        exact ⟨_, r, hu.symm, rfl, hip⟩
      · simp only [Bool.not_eq_true] at hp
        simp only [hp, Bool.not_false, if_true] at hu
        exact ⟨_, _, hu.symm, rfl, hip⟩
    · simp [hip, hs] at hu

theorem append_sep_inj (c : Char) (a b x y : List Char) (ha : c ∉ a) (hb : c ∉ b)
    (h : a ++ c :: x = b ++ c :: y) : a = b := by
  induction a generalizing b with
  | nil =>
    cases b with
    | nil => rfl
    | cons d b =>
      simp only [List.nil_append, List.cons_append, List.cons.injEq] at h
      exact absurd (h.1 ▸ List.mem_cons_self d b) hb
  | cons e a ih =>
    cases b with
    | nil =>
      simp only [List.nil_append, List.cons_append, List.cons.injEq] at h
      exact absurd (h.1 ▸ List.mem_cons_self e a) ha
    | cons d b =>
      simp only [List.cons_append, List.cons.injEq] at h
      rw [h.1, ih b (fun hm => ha (List.mem_cons_of_mem _ hm))
        (fun hm => hb (List.mem_cons_of_mem _ hm)) h.2]

/-- C19 as the code has it: two eligible pods whose IP strings hold no `:` and
differ have different scrape addresses, whatever their port and path
annotations; so `unregisterPod` of the one keeps every registry entry written
like the scrape address of the other, and with it the entry `registerPod`
stores for the other pod when that entry is stored written as its scrape
address.  With a `:` in an IP the addresses can be the same: IP `a:b` with port
`c` and IP `a` with port `b:c` have the same scrape address. -/
theorem scrapeURL_separates_ips (a b : Pod) (ua ub : String)
    (ha : scrapeURL a = some ua) (hb : scrapeURL b = some ub)
    (hca : ':' ∉ a.Status.PodIP.data) (hcb : ':' ∉ b.Status.PodIP.data)
    (hne : a.Status.PodIP ≠ b.Status.PodIP) :
    ua ≠ ub ∧
    (∀ p : Prometheus, p.lock = false →
      ∃ p2, unregisterPod a p = .returned p2 ∧
        ∀ v ∈ p.kubernetesPods, v.URL.render = ub → v ∈ p2.kubernetesPods) ∧
    (∀ p : Prometheus, p.lock = false → storedURL b = some ub →
      ∃ pod2 p1 e p2, registerPod b p = .returned (pod2, p1) ∧
        p1.kubernetesPods.getLast? = some e ∧
        unregisterPod a p1 = .returned p2 ∧ e ∈ p2.kubernetesPods) ∧
    (podColonIP.Status.PodIP ≠ podColonPort.Status.PodIP ∧
      scrapeURL podColonIP = scrapeURL podColonPort ∧
      scrapeURL podColonIP = some "http://a:b:c/metrics") := by
  have hdiff : ua ≠ ub := by
    obtain ⟨pa, ra, hua, _, _⟩ := scrapeURL_form a ua ha
    obtain ⟨pb, rb, hub, _, _⟩ := scrapeURL_form b ub hb
    intro heq
    rw [hua, hub] at heq
    have hd := congrArg String.data heq
    simp only [String.data_append, List.append_assoc] at hd
    have hd2 := List.append_cancel_left hd
    simp only [List.singleton_append] at hd2
    exact hne (String.ext (append_sep_inj ':' _ _ _ _ hca hcb hd2))
  refine ⟨hdiff, ?_, ?_, by decide, by decide, by decide⟩
  · intro p hlock
    refine ⟨_, unregisterPod_eq a p ua ha hlock, ?_⟩
    intro v hv hvb
    simp only [List.mem_filter, decide_eq_true_eq]
    exact ⟨hv, fun h => hdiff (h.symm.trans hvb)⟩
  · intro p hlock hstored
    obtain ⟨pod2, tags, e, hreg, he⟩ := registerPod_stored b p ub hstored hlock
    refine ⟨pod2, _, e, _, hreg, by simp, unregisterPod_eq a _ ua ha rfl, ?_⟩
    simp only [List.mem_filter, decide_eq_true_eq, List.mem_append, List.mem_singleton,
      or_true, true_and]
    exact fun h => hdiff (h.symm.trans he)

/-- Witness of C19: the pods `10.0.0.1` and `10.0.0.2`, on the registry that
holds both. -/
theorem scrapeURL_separates_ips_witness :
    scrapeURL podOld = some "http://10.0.0.1:9102/metrics" ∧
    scrapeURL podNew = some "http://10.0.0.2:9102/metrics" ∧
    ':' ∉ podOld.Status.PodIP.data ∧ ':' ∉ podNew.Status.PodIP.data ∧
    podOld.Status.PodIP ≠ podNew.Status.PodIP ∧
    ("http://10.0.0.1:9102/metrics" ≠ "http://10.0.0.2:9102/metrics" ∧
      (∀ p : Prometheus, p.lock = false →
        ∃ p2, unregisterPod podOld p = .returned p2 ∧
          ∀ v ∈ p.kubernetesPods, v.URL.render = "http://10.0.0.2:9102/metrics" →
            v ∈ p2.kubernetesPods) ∧
      (∀ p : Prometheus, p.lock = false →
        storedURL podNew = some "http://10.0.0.2:9102/metrics" →
        ∃ pod2 p1 e p2, registerPod podNew p = .returned (pod2, p1) ∧
          p1.kubernetesPods.getLast? = some e ∧
          unregisterPod podOld p1 = .returned p2 ∧ e ∈ p2.kubernetesPods) ∧
      (podColonIP.Status.PodIP ≠ podColonPort.Status.PodIP ∧
        scrapeURL podColonIP = scrapeURL podColonPort ∧
        scrapeURL podColonIP = some "http://a:b:c/metrics")) ∧
    storedURL podNew = some "http://10.0.0.2:9102/metrics" ∧
    (unregisterPod podOld (stateAfter [.Add podOld, .Add podNew])).result?.map urls =
      some ["http://10.0.0.2:9102/metrics"] :=
  ⟨by decide, by decide, by decide, by decide, by decide,
    scrapeURL_separates_ips podOld podNew "http://10.0.0.1:9102/metrics"
      "http://10.0.0.2:9102/metrics" (by decide) (by decide) (by decide) (by decide)
      (by decide),
    by decide, by decide⟩

/-- C19 fails as stated: the IP strings `A` and `%41` hold no `:` and differ,
and both pods are eligible with the port annotation `1@h:1`.  The entry
`registerPod` stores for the pod `%41` is written `http://A:1@h:1/metrics`
(the user name `%41` is unescaped by `url.Parse`), which is the scrape address
of the pod `A`: `unregisterPod` of the pod `A` removes it. -/
theorem unregisterPod_removes_other_pod :
    scrapeURL podIPA = some "http://A:1@h:1/metrics" ∧
    scrapeURL podIPEscaped = some "http://%41:1@h:1/metrics" ∧
    ':' ∉ podIPA.Status.PodIP.data ∧ ':' ∉ podIPEscaped.Status.PodIP.data ∧
    podIPA.Status.PodIP ≠ podIPEscaped.Status.PodIP ∧
    (registerPod podIPEscaped Prometheus.init).result?.map (fun r => urls r.2) =
      some ["http://A:1@h:1/metrics"] ∧
    ((registerPod podIPEscaped Prometheus.init).bind
        (fun r => unregisterPod podIPA r.2)).result?.map urls = some [] := by
  refine ⟨?_, ?_, ?_, ?_, ?_, ?_, ?_⟩ <;> decide

/-! ## Reading the host of a parsed address -/

theorem indexByte_eq_none (c : Char) (l : List Char) (h : c ∉ l) : indexByte c l = none := by
  induction l with
  | nil => rfl
  | cons x xs ih =>
    simp only [List.mem_cons, not_or] at h
    have hx : ¬ x = c := fun e => h.1 e.symm
    simp [indexByte, hx, ih h.2]

theorem indexByte_append (c : Char) (a b : List Char) (h : c ∉ a) :
    indexByte c (a ++ c :: b) = some a.length := by
  induction a with
  | nil => simp [indexByte]
  | cons x xs ih =>
    simp only [List.mem_cons, not_or] at h
    have hx : ¬ x = c := fun e => h.1 e.symm
    simp [indexByte, hx, ih h.2]

theorem lastIndexByte_eq_none (c : Char) (l : List Char) (h : c ∉ l) :
    lastIndexByte c l = none := by
  induction l with
  | nil => rfl
  | cons x xs ih =>
    simp only [List.mem_cons, not_or] at h
    have hx : ¬ x = c := fun e => h.1 e.symm
    simp [lastIndexByte, hx, ih h.2]

theorem lastIndexByte_append (c : Char) (a b : List Char) (h : c ∉ b) :
    lastIndexByte c (a ++ c :: b) = some a.length := by
  induction a with
  | nil => simp [lastIndexByte, lastIndexByte_eq_none c b h]
  | cons x xs ih => simp [lastIndexByte, ih]

theorem takeWhile_of_indexByte_none (c : Char) (l : List Char) (h : indexByte c l = none) :
    l.takeWhile (fun x => decide (x ≠ c)) = l := by
  induction l with
  | nil => rfl
  | cons x xs ih =>
    by_cases hx : x = c
    · simp [indexByte, hx] at h
    · simp only [indexByte, hx, if_false, Option.map_eq_none'] at h
      rw [List.takeWhile_cons]
      simp only [ne_eq, hx, not_false_eq_true, decide_True, ih h, if_true]

theorem take_of_indexByte_some (c : Char) (l : List Char) (i : Nat)
    (h : indexByte c l = some i) : l.take i = l.takeWhile (fun x => decide (x ≠ c)) := by
  induction l generalizing i with
  | nil => simp [indexByte] at h
  | cons x xs ih =>
    by_cases hx : x = c
    · simp only [indexByte, hx, if_true, Option.some.injEq] at h
      simp [List.takeWhile_cons, hx, ← h]
    · simp only [indexByte, hx, if_false, Option.map_eq_some'] at h
      obtain ⟨j, hj, rfl⟩ := h
      simp [List.takeWhile_cons, hx, ih j hj]

theorem cut_fst_data (s : String) (c : Char) :
    (cut s c).1.data = s.data.takeWhile (fun x => decide (x ≠ c)) := by
  unfold cut
  cases h : indexByte c s.data with
  | none => simp only []; exact (takeWhile_of_indexByte_none c s.data h).symm
  | some i => simp only []; exact take_of_indexByte_some c s.data i h

theorem unescapeBytes_of_no_percent (mode : encoding) (hm : mode ≠ encodeQueryComponent)
    (l : List Char) (h : '%' ∉ l) : unescapeBytes mode l = l := by
  induction l with
  | nil => rfl
  | cons x xs ih =>
    simp only [List.mem_cons, not_or] at h
    have hx : ¬ x = '%' := fun e => h.1 e.symm
    unfold unescapeBytes
    by_cases hp : x = '+'
    · subst hp
      simp only [hx, hm, if_false, if_true, ih h.2]
    · simp only [hx, hp, if_false, ih h.2]

theorem unescape_of_no_percent (mode : encoding) (hm : mode ≠ encodeQueryComponent)
    (s t : String) (h : '%' ∉ s.data) (hu : unescape s mode = some t) : t = s := by
  unfold unescape at hu
  by_cases hok : unescapeOK mode s.data = true
  · simp only [hok, if_true, Option.some.injEq] at hu
    rw [← hu, unescapeBytes_of_no_percent mode hm s.data h]
  · simp [hok] at hu

theorem parseHost_plain (host t : String) (hpc : '%' ∉ host.data)
    (hbr : host.data.head? ≠ some '[') (h : parseHost host = some t) : t = host := by
  unfold parseHost at h
  have hpre : hasPrefix host "[" = false := by
    unfold hasPrefix
    cases hd : host.data with
    | nil => rfl
    | cons x xs =>
      rw [hd] at hbr
      simp only [List.head?_cons, ne_eq, Option.some.injEq] at hbr
      show List.isPrefixOf ['['] (x :: xs) = false
      simp [List.isPrefixOf, hbr]
      exact fun e => hbr e.symm
  simp only [hpre, Bool.false_eq_true, if_false] at h
  cases hl : lastIndexByte ':' host.data with
  | none =>
    simp only [hl] at h
    exact unescape_of_no_percent encodeHost (by decide) host t hpc h
  | some i =>
    simp only [hl] at h
    by_cases hv : validOptionalPort ⟨host.data.drop i⟩ = true
    · simp only [hv, Bool.not_true, Bool.false_eq_true, if_false] at h
      exact unescape_of_no_percent encodeHost (by decide) host t hpc h
    · simp [hv] at h

theorem parseAuthority_plain (authority : String) (r : Option Userinfo × String)
    (hat : '@' ∉ authority.data) (hpc : '%' ∉ authority.data)
    (hbr : authority.data.head? ≠ some '[') (h : parseAuthority authority = some r) :
    r = (none, authority) := by
  unfold parseAuthority at h
  simp only [lastIndexByte_eq_none '@' authority.data hat] at h
  cases hp : parseHost authority with
  | none => simp [hp] at h
  | some t =>
    simp only [hp, Option.map_some', Option.some.injEq] at h
    rw [← h, parseHost_plain authority t hpc hbr hp]

theorem setPath_host (u v : URL) (p : String) (h : u.setPath p = some v) :
    v.Host = u.Host := by
  unfold URL.setPath at h
  cases hp : unescape p encodePath with
  | none => simp [hp] at h
  | some path =>
    simp only [hp, Option.some.injEq] at h
    rw [← h]

theorem setFragment_host (u v : URL) (f : String) (h : u.setFragment f = some v) :
    v.Host = u.Host := by
  unfold URL.setFragment at h
  cases hp : unescape f encodeFragment with
  | none => simp [hp] at h
  | some frag =>
    simp only [hp, Option.some.injEq] at h
    rw [← h]


theorem getScheme_http (t : List Char) :
    getScheme ⟨'h' :: 't' :: 't' :: 'p' :: ':' :: t⟩ = some ("http", ⟨t⟩) := by
  rfl

theorem hasSuffix_question_ne_nil (X rest : List Char)
    (h : hasSuffix ⟨X ++ '/' :: rest⟩ "?" = true) : rest ≠ [] := by
  intro hr
  subst hr
  unfold hasSuffix at h
  have hq : ("?" : String).data.reverse = ['?'] := rfl
  simp only [hq, List.reverse_append, List.reverse_cons, List.reverse_nil, List.nil_append,
    List.singleton_append, List.cons_append] at h
  simp [List.isPrefixOf] at h

theorem parse_plain_host (auth rest : List Char) (url : URL)
    (hs : '/' ∉ auth) (hq : '?' ∉ auth) (hat : '@' ∉ auth) (hpc : '%' ∉ auth)
    (hbr : auth.head? ≠ some '[')
    (h : parse ⟨'h' :: 't' :: 't' :: 'p' :: ':' :: '/' :: '/' :: (auth ++ '/' :: rest)⟩ false = some url) :
    url.Host = ⟨auth⟩ := by
  unfold parse at h
  rw [getScheme_http] at h
  have h1 : (⟨'h' :: 't' :: 't' :: 'p' :: ':' :: '/' :: '/' :: (auth ++ '/' :: rest)⟩ : String)
      ≠ "" := by
    intro e
    have := congrArg String.data e
    simp at this
  have h2 : (⟨'h' :: 't' :: 't' :: 'p' :: ':' :: '/' :: '/' :: (auth ++ '/' :: rest)⟩ : String)
      ≠ "*" := by
    intro e
    have := congrArg String.data e
    simp at this
  have h3 : toLower "http" ≠ "" := by decide
  have hfin : ∀ (rest2 : List Char) (f : Option Userinfo → String → URL),
      (∀ user host, (f user host).Host = host) →
      (match parseAuthority ⟨auth⟩ with
        | none => none
        | some (user, host) => URL.setPath (f user host) ⟨'/' :: rest2⟩) = some url →
      url.Host = ⟨auth⟩ := by
    intro rest2 f hf hm
    cases hpa : parseAuthority ⟨auth⟩ with
    | none => simp [hpa] at hm
    | some r =>
      have hr := parseAuthority_plain ⟨auth⟩ r hat hpc hbr hpa
      subst hr
      simp only [hpa] at hm
      rw [setPath_host _ _ _ hm, hf]
  by_cases hctl : stringContainsCTLByte
      ⟨'h' :: 't' :: 't' :: 'p' :: ':' :: '/' :: '/' :: (auth ++ '/' :: rest)⟩ = true
  · simp [hctl] at h
  simp only [hctl, h1, h2, false_and, if_false, Bool.false_eq_true] at h
  by_cases hc : hasSuffix ⟨'/' :: '/' :: (auth ++ '/' :: rest)⟩ "?" = true ∧
      countByte ⟨'/' :: '/' :: (auth ++ '/' :: rest)⟩ '?' = 1
  · simp only [hc, and_self, if_true, h3, ne_eq, not_false_eq_true, and_true, true_or, true_and] at h
    have hne : rest ≠ [] := hasSuffix_question_ne_nil ('/' :: '/' :: auth) rest hc.1
    have hR : List.take (('/' :: '/' :: (auth ++ '/' :: rest)).length - 1)
        ('/' :: '/' :: (auth ++ '/' :: rest)) = '/' :: '/' :: (auth ++ '/' :: rest.dropLast) := by
      rw [← List.dropLast_eq_take]
      have : '/' :: '/' :: (auth ++ '/' :: rest) = ('/' :: '/' :: auth ++ ['/']) ++ rest := by simp
      rw [this, List.dropLast_append_of_ne_nil _ hne]
      simp
    rw [hR] at h
    have hp1 : hasPrefix ⟨'/' :: '/' :: (auth ++ '/' :: rest.dropLast)⟩ "/" = true := rfl
    have hp2 : hasPrefix ⟨'/' :: '/' :: (auth ++ '/' :: rest.dropLast)⟩ "//" = true := by
      simp [hasPrefix]
    simp only [hp1, hp2, Bool.not_true, Bool.false_eq_true, false_and, if_false, if_true,
      List.drop_succ_cons, List.drop_zero, indexByte_append '/' auth _ hs, List.take_left,
      List.drop_left] at h
    exact hfin _ _ (fun _ _ => rfl) h
  · simp only [hc, if_false, h3, ne_eq, not_false_eq_true, and_true, true_or, true_and] at h
    have hR : (cut ⟨'/' :: '/' :: (auth ++ '/' :: rest)⟩ '?').1 =
        ⟨'/' :: '/' :: (auth ++ '/' :: rest.takeWhile (fun x => decide (x ≠ '?')))⟩ := by
      apply String.ext
      rw [cut_fst_data]
      have : '/' :: '/' :: (auth ++ '/' :: rest) = ('/' :: '/' :: auth ++ ['/']) ++ rest := by simp
      simp only []
      rw [this, List.takeWhile_append_of_pos]
      · simp
      · intro c hcm
        simp only [List.cons_append, List.mem_cons, List.mem_append, List.mem_singleton,
          List.not_mem_nil, or_false] at hcm
        rcases hcm with rfl | rfl | hcm | rfl
        · decide
        · decide
        · simp only [ne_eq, decide_eq_true_eq]
          exact fun e => hq (e ▸ hcm)
        · decide
    rw [hR] at h
    have hp1 : hasPrefix ⟨'/' :: '/' :: (auth ++ '/' :: rest.takeWhile
        (fun x => decide (x ≠ '?')))⟩ "/" = true := rfl
    have hp2 : hasPrefix ⟨'/' :: '/' :: (auth ++ '/' :: rest.takeWhile
        (fun x => decide (x ≠ '?')))⟩ "//" = true := by
      simp [hasPrefix]
    simp only [hp1, hp2, Bool.not_true, Bool.false_eq_true, false_and, if_false, if_true,
      List.drop_succ_cons, List.drop_zero, indexByte_append '/' auth _ hs, List.take_left,
      List.drop_left] at h
    exact hfin _ _ (fun _ _ => rfl) h


theorem Parse_plain_host (auth rest : List Char) (url : URL)
    (hs : '/' ∉ auth) (hq : '?' ∉ auth) (hat : '@' ∉ auth) (hpc : '%' ∉ auth)
    (hh : '#' ∉ auth) (hbr : auth.head? ≠ some '[')
    (h : Parse ⟨'h' :: 't' :: 't' :: 'p' :: ':' :: '/' :: '/' :: (auth ++ '/' :: rest)⟩ =
      some url) :
    url.Host = ⟨auth⟩ := by
  unfold Parse at h
  have hR : (cut ⟨'h' :: 't' :: 't' :: 'p' :: ':' :: '/' :: '/' :: (auth ++ '/' :: rest)⟩ '#').1 =
      ⟨'h' :: 't' :: 't' :: 'p' :: ':' :: '/' :: '/' ::
        (auth ++ '/' :: rest.takeWhile (fun x => decide (x ≠ '#')))⟩ := by
    apply String.ext
    rw [cut_fst_data]
    have : 'h' :: 't' :: 't' :: 'p' :: ':' :: '/' :: '/' :: (auth ++ '/' :: rest) =
        ('h' :: 't' :: 't' :: 'p' :: ':' :: '/' :: '/' :: auth ++ ['/']) ++ rest := by simp
    simp only []
    rw [this, List.takeWhile_append_of_pos]
    · simp
    · intro c hcm
      simp only [List.cons_append, List.mem_cons, List.mem_append, List.mem_singleton,
        List.not_mem_nil, or_false] at hcm
      rcases hcm with rfl | rfl | rfl | rfl | rfl | rfl | rfl | hcm | rfl
      all_goals first
        | decide
        | (simp only [ne_eq, decide_eq_true_eq]; exact fun e => hh (e ▸ hcm))
  rw [hR] at h
  cases hp : parse ⟨'h' :: 't' :: 't' :: 'p' :: ':' :: '/' :: '/' ::
      (auth ++ '/' :: rest.takeWhile (fun x => decide (x ≠ '#')))⟩ false with
  | none =>
    rw [hp] at h
    exact Option.noConfusion h
  | some v =>
    have hv := parse_plain_host auth _ v hs hq hat hpc hbr hp
    simp only [hp] at h
    by_cases hf : (cut ⟨'h' :: 't' :: 't' :: 'p' :: ':' :: '/' :: '/' ::
        (auth ++ '/' :: rest)⟩ '#').2 = ""
    · simp only [hf, if_true, Option.some.injEq] at h
      rw [← h, hv]
    · simp only [hf, if_false] at h
      rw [setFragment_host _ _ _ h, hv]

theorem validOptionalPort_digits (port : List Char)
    (hd : ∀ c ∈ port, isDigitByte c = true) : validOptionalPort ⟨':' :: port⟩ = true := by
  unfold validOptionalPort
  simp only [ne_eq, not_true_eq_false, if_false, List.all_eq_true]
  intro c hc
  have := hd c hc
  simp only [isDigitByte, decide_eq_true_eq] at this
  simp only [gt_iff_lt, Bool.not_eq_true', decide_eq_false_iff_not, not_or, not_lt]
  exact this

theorem splitHostPort_ip_port (ip port : List Char) (hbr : ip.head? ≠ some '[')
    (hd : ∀ c ∈ port, isDigitByte c = true) :
    splitHostPort ⟨ip ++ ':' :: port⟩ = (⟨ip⟩, ⟨port⟩) := by
  have hcolon : ':' ∉ port := by
    intro hm
    exact absurd (hd ':' hm) (by decide)
  unfold splitHostPort
  simp only [lastIndexByte_append ':' ip port hcolon, List.drop_left,
    validOptionalPort_digits port hd, if_true, List.take_left]
  have hpre : hasPrefix ⟨ip⟩ "[" = false := by
    unfold hasPrefix
    cases ip with
    | nil => rfl
    | cons x xs =>
      simp only [List.head?_cons, ne_eq, Option.some.injEq] at hbr
      show List.isPrefixOf ['['] (x :: xs) = false
      simp [List.isPrefixOf]
      exact fun e => hbr e.symm
  have hdrop : List.drop (ip.length + 1) (ip ++ ':' :: port) = port := by
    have : ip ++ ':' :: port = (ip ++ [':']) ++ port := by simp
    rw [this]
    exact List.drop_left' (by simp)
  simp [hpre, hdrop]

theorem isIPByte_plain (c : Char) (h : isIPByte c = true) :
    c ≠ '/' ∧ c ≠ '?' ∧ c ≠ '@' ∧ c ≠ '%' ∧ c ≠ '#' ∧ c ≠ '[' := by
  refine ⟨?_, ?_, ?_, ?_, ?_, ?_⟩ <;> (intro e; subst e; exact absurd h (by decide))

theorem isDigitByte_plain (c : Char) (h : isDigitByte c = true) :
    c ≠ '/' ∧ c ≠ '?' ∧ c ≠ '@' ∧ c ≠ '%' ∧ c ≠ '#' := by
  refine ⟨?_, ?_, ?_, ?_, ?_⟩ <;> (intro e; subst e; exact absurd h (by decide))


/-- C17 as the code has it: the `Address` of the descriptor is the host name
of the parsed scrape URL.  For an eligible pod whose scrape URL parses, whose
IP is written with hex digits, `.` and `:` only (IPv4 and IPv6 text) and whose
port annotation is absent, empty or made of digits, `registerPod` appends a
descriptor whose `Address` is the pod's IP string. -/
theorem registerPod_address (pod : Pod) (p : Prometheus) (u : String)
    (hu : scrapeURL pod = some u) (hparse : Parse u ≠ none) (hlock : p.lock = false)
    (hip : ∀ c ∈ pod.Status.PodIP.data, isIPByte c = true)
    (hport : ∀ c ∈ (index pod.ObjectMeta.Annotations "prometheus.io/port").data,
      isDigitByte c = true) :
    ∃ pod2 tags e, registerPod pod p =
        .returned (pod2, { lock := false,
                           kubernetesPods :=
                             shareTags pod.ObjectMeta.AnnotationsAddr tags p.kubernetesPods ++
                               [e] }) ∧
      e.Address = pod.Status.PodIP := by
  obtain ⟨m, hm⟩ := annotations_of_scrapeURL pod u hu
  obtain ⟨port, r, hform, hportdef, hne⟩ := scrapeURL_form pod u hu
  have hdig : ∀ c ∈ port.data, isDigitByte c = true := by
    rw [hportdef]
    by_cases he : index pod.ObjectMeta.Annotations "prometheus.io/port" = ""
    · simp only [he, if_true]
      decide
    · simp only [he, if_false]
      exact hport
  have hbr : (pod.Status.PodIP.data ++ ':' :: port.data).head? ≠ some '[' := by
    cases hd : pod.Status.PodIP.data with
    | nil => exact absurd (String.ext hd) hne
    | cons x xs =>
      simp only [List.cons_append, List.head?_cons, ne_eq, Option.some.injEq]
      exact (isIPByte_plain x (hip x (by rw [hd]; exact List.mem_cons_self x xs))).2.2.2.2.2
  have hbr2 : pod.Status.PodIP.data.head? ≠ some '[' := by
    cases hd : pod.Status.PodIP.data with
    | nil => simp
    | cons x xs =>
      rw [hd] at hbr
      simpa using hbr
  have hplain : ∀ c ∈ pod.Status.PodIP.data ++ ':' :: port.data,
      c ≠ '/' ∧ c ≠ '?' ∧ c ≠ '@' ∧ c ≠ '%' ∧ c ≠ '#' := by
    intro c hc
    simp only [List.mem_append, List.mem_cons] at hc
    rcases hc with hc | rfl | hc
    · have := isIPByte_plain c (hip c hc)
      exact ⟨this.1, this.2.1, this.2.2.1, this.2.2.2.1, this.2.2.2.2.1⟩
    · decide
    · exact isDigitByte_plain c (hdig c hc)
  have hudata : u = ⟨'h' :: 't' :: 't' :: 'p' :: ':' :: '/' :: '/' ::
      ((pod.Status.PodIP.data ++ ':' :: port.data) ++ '/' :: r.data)⟩ := by
    rw [hform]
    apply String.ext
    simp [String.data_append]
  cases hp : Parse u with
  | none => exact absurd hp hparse
  | some parsed =>
    refine ⟨_, _, _, registerPod_parsed pod p u parsed m hu hp hm hlock, ?_⟩
    rw [hudata] at hp
    have hhost := Parse_plain_host _ _ parsed
      (fun hmem => (hplain _ hmem).1 rfl) (fun hmem => (hplain _ hmem).2.1 rfl)
      (fun hmem => (hplain _ hmem).2.2.1 rfl) (fun hmem => (hplain _ hmem).2.2.2.1 rfl)
      (fun hmem => (hplain _ hmem).2.2.2.2 rfl) hbr hp
    show parsed.Hostname = pod.Status.PodIP
    unfold URL.Hostname
    rw [hhost, splitHostPort_ip_port _ _ hbr2 hdig]

/-- Witness of C17: the IPv6 address `fd00::1` with the port annotation
`8080`. -/
theorem registerPod_address_witness :
    scrapeURL podV6 = some "http://fd00::1:8080/metrics" ∧
    Parse "http://fd00::1:8080/metrics" ≠ none ∧
    Prometheus.init.lock = false ∧
    (∀ c ∈ podV6.Status.PodIP.data, isIPByte c = true) ∧
    (∀ c ∈ (index podV6.ObjectMeta.Annotations "prometheus.io/port").data,
      isDigitByte c = true) ∧
    (∃ pod2 tags e, registerPod podV6 Prometheus.init =
        .returned (pod2, { lock := false,
                           kubernetesPods :=
                             shareTags podV6.ObjectMeta.AnnotationsAddr tags
                               Prometheus.init.kubernetesPods ++ [e] }) ∧
      e.Address = podV6.Status.PodIP) ∧
    (registerPod podV6 Prometheus.init).result?.map (fun r => addresses r.2) =
      some ["fd00::1"] ∧
    (registerPod podPlain Prometheus.init).result?.map (fun r => addresses r.2) =
      some ["10.0.0.5"] :=
  ⟨by decide, by decide, by decide, by decide, by decide,
    registerPod_address podV6 Prometheus.init "http://fd00::1:8080/metrics"
      (by decide) (by decide) (by decide) (by decide) (by decide),
    by decide, by decide⟩

/-- C17 fails as stated: the pod `10.0.0.5` with the port annotation
`1@evil.com:80` is eligible and its scrape URL parses, with `10.0.0.5:1` as
user information and `evil.com:80` as host; the descriptor that `registerPod`
appends has the `Address` `evil.com`, not the pod's IP. -/
theorem registerPod_address_not_ip :
    scrapeURL podEvilPort = some "http://10.0.0.5:1@evil.com:80/metrics" ∧
    Parse "http://10.0.0.5:1@evil.com:80/metrics" ≠ none ∧
    podEvilPort.Status.PodIP = "10.0.0.5" ∧
    (registerPod podEvilPort Prometheus.init).result?.map (fun r => addresses r.2) =
      some ["evil.com"] := by
  refine ⟨?_, ?_, ?_, ?_⟩ <;> decide

end Telegraf
